import Mathlib

/-!
Verification of the traktor-tsi reverse-engineering decoder.

This file shallowly embeds the Python sources of the repository
(src/traktor_tsi/beio.py, frames.py, midi.py, enums.py, parser.py) as
executable Lean definitions and proves the frozen claims about them.

Modelling conventions:
- a Python bytes object is a List Nat (each element a byte value);
- machine integers are Nat (all reads are of unsigned values; the one
  signed reinterpretation in the source, to_s32, is modelled explicitly);
- IEEE-754 float32 values are carried as their 32-bit big-endian bit
  pattern (a Nat); the only operations the source performs on floats are
  reading them and the sanitation test (isnan or magnitude below 1e-20),
  which is decided exactly on the bit pattern;
- a Python function that can raise returns an Option, with none for the
  raised exception; "field absent" (Python None) is an inner Option;
- Python str values are Lean String; str helpers (split, strip, upper,
  int parsing) are modelled for the ASCII range, which covers every
  string the format and the claims involve;
- hex-string fields of the source (raw bytes rendered via bytes.hex())
  are carried as the raw byte list itself: bytes.hex() is injective, so
  equalities between records are unaffected.
-/

namespace Tsi

/-! ## Byte-level primitives (beio.py, class BER)

The Python class BER holds (data, off, end).  Its read methods are
embedded as functions taking data and the offset explicitly; the off
returned is the advanced cursor.  Note that, in the source, u8 and u32
and f32 and bytes index self.data directly and never consult self.end:
only the length of the underlying buffer can make a read fail (Python
raises IndexError or struct.error there, modelled as none).  bytes(n)
slices and therefore silently truncates, never failing. -/

/-- Read the byte at an absolute offset; 0 is only returned for offsets
inside the buffer via getD, so this is exactly Python data brackets. -/
def byteAt (data : List Nat) (i : Nat) : Nat := data.getD i 0

/-- Big-endian 32-bit value formed from the four bytes at off
(struct.unpack of a BE unsigned int). -/
def be32 (data : List Nat) (off : Nat) : Nat :=
  byteAt data off * 16777216 + byteAt data (off + 1) * 65536 +
    byteAt data (off + 2) * 256 + byteAt data (off + 3)

/-- BER.u8: returns the byte at off and advances; raises (none) only when
off is at or past the end of the underlying buffer, regardless of the
declared end of the sub-view. -/
def u8 (data : List Nat) (off : Nat) : Option (Nat × Nat) :=
  if off < data.length then some (byteAt data off, off + 1) else none

/-- BER.u32: big-endian unsigned 32-bit read; raises (none) only when the
four bytes would cross the end of the underlying buffer. -/
def u32 (data : List Nat) (off : Nat) : Option (Nat × Nat) :=
  if off + 4 ≤ data.length then some (be32 data off, off + 4) else none

/-- BER.f32: reads the 4 bytes exactly like u32; the float is carried as
its bit pattern. -/
def f32 (data : List Nat) (off : Nat) : Option (Nat × Nat) := u32 data off

/-- BER.bytes(n): Python slice, silently truncated at the end of the
underlying buffer; the cursor advances by the full n regardless. -/
def bytesN (data : List Nat) (off n : Nat) : List Nat × Nat :=
  ((data.drop off).take n, off + n)

/-! ## UTF-16BE decoding

wstr helpers decode with errors equal to ignore: a lone surrogate unit or
a trailing odd byte is dropped; a valid surrogate pair combines. -/

/-- Big-endian 16-bit code units from a byte list; a trailing odd byte is
dropped (CPython reports it as a truncated-data error, here ignored,
matching the only error handler the source uses). -/
def utf16Units : List Nat → List Nat
  | b1 :: b2 :: rest => (b1 * 256 + b2) :: utf16Units rest
  | _ => []

/-- Decode UTF-16 code units with the ignore error handler: malformed
(unpaired surrogate) units are dropped. -/
def decodeUnitsIgnore : List Nat → List Char
  | [] => []
  | [u] => if u < 0xD800 ∨ 0xE000 ≤ u then [Char.ofNat u] else []
  | u :: v :: rest =>
    if u < 0xD800 ∨ 0xE000 ≤ u then Char.ofNat u :: decodeUnitsIgnore (v :: rest)
    else if u < 0xDC00 then
      if 0xDC00 ≤ v ∧ v < 0xE000 then
        Char.ofNat (0x10000 + (u - 0xD800) * 0x400 + (v - 0xDC00)) ::
          decodeUnitsIgnore rest
      else decodeUnitsIgnore (v :: rest)
    else decodeUnitsIgnore (v :: rest)

/-- Python bytes.decode of utf-16-be with errors ignore. -/
def decodeUtf16Ignore (bs : List Nat) : String :=
  ⟨decodeUnitsIgnore (utf16Units bs)⟩

/-- BER.wstr_prefixed: u32 code-unit count, then 2*count bytes decoded as
UTF-16BE with the ignore handler; fails (none) only if the count itself
cannot be read from the underlying buffer. -/
def wstrPrefixed (data : List Nat) (off : Nat) : Option (String × Nat) :=
  match u32 data off with
  | none => none
  | some (n, o) =>
    let (raw, o2) := bytesN data o (n * 2)
    some (decodeUtf16Ignore raw, o2)

/-! ## Frame header (beio.read_frame_header)

Reads a 4-byte tag and a payload length, then validates that the payload
fits inside the declared end e of the reader.  Returns the tag bytes (as
decoded by ascii-with-ignore: bytes at or above 128 are dropped), the
payload start and the payload end.  A bounds violation raises ValueError
in the source; a short buffer raises struct.error; both are none here.
Note the u32 read advances the cursor before the bounds check, so on a
ValueError the Python cursor rests at off + 8 (used by the walker). -/

/-- Tag of a frame at off: 4 sliced bytes, ascii-decoded with ignore
(bytes at or above 128 dropped). -/
def fidAt (data : List Nat) (off : Nat) : List Nat :=
  (((data.drop off).take 4).filter (fun b => b < 128))

/-- read_frame_header at absolute offset off against declared end e. -/
def read_frame_header (data : List Nat) (e off : Nat) :
    Option (List Nat × Nat × Nat) :=
  if off + 8 ≤ data.length then
    if off + 8 + be32 data (off + 4) ≤ e then
      some (fidAt data off, off + 8, off + 8 + be32 data (off + 4))
    else none
  else none

/-! ## Python string helpers (ASCII model) -/

def isPyDigit (c : Char) : Bool := '0' ≤ c ∧ c ≤ '9'

def isPySpace (c : Char) : Bool :=
  c = ' ' ∨ c = '\t' ∨ c = '\n' ∨ c = '\x0b' ∨ c = '\x0c' ∨ c = '\r'

/-- Python str.strip() over the ASCII whitespace set. -/
def pyStrip (l : List Char) : List Char :=
  ((l.dropWhile isPySpace).reverse.dropWhile isPySpace).reverse

/-- Python str.split(sep) for a one-character separator. -/
def splitOnChar (sep : Char) : List Char → List (List Char)
  | [] => [[]]
  | c :: r =>
    match splitOnChar sep r with
    | h :: t => if c = sep then [] :: h :: t else (c :: h) :: t
    | [] => [[c]]

def digitsVal : List Char → Nat :=
  fun l => l.foldl (fun a c => a * 10 + (c.toNat - 48)) 0

def hexDigitVal (c : Char) : Nat :=
  if isPyDigit c then c.toNat - 48
  else if 'a' ≤ c ∧ c ≤ 'f' then c.toNat - 87
  else c.toNat - 55

def isHexDigit (c : Char) : Bool :=
  isPyDigit c ∨ ('a' ≤ c ∧ c ≤ 'f') ∨ ('A' ≤ c ∧ c ≤ 'F')

def hexVal : List Char → Nat :=
  fun l => l.foldl (fun a c => a * 16 + hexDigitVal c) 0

/-- Digit run with single underscores allowed between digits (Python 3
integer literal grammar as accepted by int()).  prev records whether the
previous character was a digit; returns the digits with underscores
removed, or none if the grammar is violated or no digit appears. -/
def digitsU (isD : Char → Bool) : List Char → Bool → Option (List Char)
  | [], prev => if prev then some [] else none
  | c :: r, prev =>
    if isD c then (digitsU isD r true).map (c :: ·)
    else if c = '_' ∧ prev then digitsU isD r false
    else none

/-- Python int(s) for base 10 (ASCII model: optional surrounding
whitespace, optional sign, digits with single interior underscores). -/
def pyInt (l : List Char) : Option Int :=
  let t := pyStrip l
  match t with
  | '+' :: r => (digitsU isPyDigit r false).map (fun ds => (digitsVal ds : Int))
  | '-' :: r => (digitsU isPyDigit r false).map (fun ds => -(digitsVal ds : Int))
  | r => (digitsU isPyDigit r false).map (fun ds => (digitsVal ds : Int))

/-- Python int(s, 16) (ASCII model: optional whitespace and sign, optional
0x prefix which may be followed by one underscore, hex digits with single
interior underscores). -/
def pyIntHex (l : List Char) : Option Int :=
  let t := pyStrip l
  let core : List Char → Option Nat := fun r =>
    match r with
    | '0' :: x :: rest =>
      if x = 'x' ∨ x = 'X' then
        match digitsU isHexDigit rest true with
        | some ds => if ds = [] then none else some (hexVal ds)
        | none => none
      else (digitsU isHexDigit r false).map hexVal
    | _ => (digitsU isHexDigit r false).map hexVal
  match t with
  | '+' :: r => (core r).map (fun n => (n : Int))
  | '-' :: r => (core r).map (fun n => -(n : Int))
  | r => (core r).map (fun n => (n : Int))

/-! ## Binding-name parsing (midi.py) -/

/-- Letter accepted by the note-name regex, groups A-G and a-g. -/
def isNoteLetter (c : Char) : Bool :=
  ('A' ≤ c ∧ c ≤ 'G') ∨ ('a' ≤ c ∧ c ≤ 'g')

/-- The fixed letter-and-accidental to semitone table of midi.py
(17 keys; E sharp, F flat, B sharp and C flat are not present). -/
def semitone : Char → Option Char → Option Int
  | 'C', none => some 0
  | 'C', some '#' => some 1
  | 'D', some 'b' => some 1
  | 'D', none => some 2
  | 'D', some '#' => some 3
  | 'E', some 'b' => some 3
  | 'E', none => some 4
  | 'F', none => some 5
  | 'F', some '#' => some 6
  | 'G', some 'b' => some 6
  | 'G', none => some 7
  | 'G', some '#' => some 8
  | 'A', some 'b' => some 8
  | 'A', none => some 9
  | 'A', some '#' => some 10
  | 'B', some 'b' => some 10
  | 'B', none => some 11
  | _, _ => none

/-- Splits the regex tail: an optional accidental character taken from
the head of the rest. -/
def accSplit : List Char → Option Char × List Char
  | a :: r => if a = '#' ∨ a = 'b' then (some a, r) else (none, a :: r)
  | [] => (none, [])

/-- Splits an optional leading minus sign. -/
def signSplit : List Char → Bool × List Char
  | '-' :: r => (true, r)
  | r => (false, r)

/-- midi._note_name_to_number: matches the anchored regex
letter, optional sharp or flat, optional minus, digits, then looks the
uppercased letter plus accidental up in the semitone table and computes
(octave + 1) * 12 + semitone. -/
def noteNameToNumber (s : List Char) : Option Int :=
  match s with
  | [] => none
  | c :: rest =>
    if isNoteLetter c then
      let (acc, rest2) := accSplit rest
      let (neg, ds) := signSplit rest2
      if ds ≠ [] ∧ ds.all isPyDigit then
        let octave : Int := if neg then -(digitsVal ds : Int) else (digitsVal ds : Int)
        match semitone c.toUpper acc with
        | some st => some ((octave + 1) * 12 + st)
        | none => none
      else none
    else none

/-- Result quadruple of midi.parse_binding_name. -/
structure BindResult where
  channel : Option Int
  event : Option String
  number : Option Int
  noteName : Option String
deriving DecidableEq, Repr

def BindResult.allNone : BindResult := ⟨none, none, none, none⟩

/-- Normalisation of the event segment (midi.py line 60): NOTE stays, CC
and CONTROL become CC, anything else keeps its stripped uppercase form. -/
def normEvent (seg : List Char) : List Char :=
  let eventRaw := (pyStrip seg).map Char.toUpper
  if eventRaw = "NOTE".data then "NOTE".data
  else if eventRaw = "CC".data ∨ eventRaw = "CONTROL".data then "CC".data
  else eventRaw

/-- Tail interpretation (midi.py lines 64 to 86).  Note the source
returns the literal string CC, not the normalised event, on the non-NOTE
path.  Returns the event actually returned, the number, the note name. -/
def tailInterp (event : List Char) (tail : List Char) :
    String × Option Int × Option String :=
  if event = "NOTE".data then
    match noteNameToNumber tail with
    | some n => ("NOTE", some n, some ⟨tail⟩)
    | none =>
      match pyInt tail with
      | some n => ("NOTE", some n, none)
      | none =>
        match pyIntHex tail with
        | some n => ("NOTE", some n, none)
        | none => ("NOTE", none, some ⟨tail⟩)
  else
    match pyInt tail with
    | some n => ("CC", some n, none)
    | none =>
      match pyIntHex tail with
      | some n => ("CC", some n, none)
      | none => ("CC", none, some ⟨tail⟩)

/-- midi.parse_binding_name on an optional string (the source is called
with a possibly missing binding name; the empty string is falsy). -/
def parseBindingName (name : Option String) : BindResult :=
  match name with
  | none => .allNone
  | some s =>
    let l := s.data
    if l = [] then .allNone
    else if ¬ (l.take 2 = "Ch".data) then .allNone
    else
      let parts := splitOnChar '.' l
      if parts.length < 3 then .allNone
      else
        let ch := pyInt ((parts.getD 0 []).drop 2)
        let ev := normEvent (parts.getD 1 [])
        let tail := pyStrip (parts.getD 2 [])
        let (evOut, num, nn) := tailInterp ev tail
        ⟨ch, some evOut, num, nn⟩

/-! ## Spec-modelled comparison definitions

The following definitions are not translations of the source: each
follows the words of the spec, for comparison against the embedded
source behaviour in the corresponding claim. -/

/-- Modelled from the spec: the claimed pitch-name grammar
letter, optional sharp or flat, optional minus, digits. -/
def specPitchGrammar (s : List Char) : Bool :=
  match s with
  | [] => false
  | c :: rest =>
    isNoteLetter c &&
      (let (_, rest2) := accSplit rest
       let (_, ds) := signSplit rest2
       ds ≠ [] && ds.all isPyDigit)

/-- Modelled from the spec: the claimed number formula, semitone being the
natural letter value (C=0 to B=11) adjusted by +1 for a sharp and -1 for
a flat, number = (octave+1)*12+semitone. -/
def specNoteNumber (s : List Char) : Option Int :=
  match s with
  | [] => none
  | c :: rest =>
    if isNoteLetter c then
      let (acc, rest2) := accSplit rest
      let (neg, ds) := signSplit rest2
      if ds ≠ [] ∧ ds.all isPyDigit then
        let octave : Int := if neg then -(digitsVal ds : Int) else (digitsVal ds : Int)
        let natural : Int :=
          match c.toUpper with
          | 'C' => 0 | 'D' => 2 | 'E' => 4 | 'F' => 5
          | 'G' => 7 | 'A' => 9 | _ => 11
        let adj : Int := match acc with
          | some '#' => 1
          | some _ => -1
          | none => 0
        some ((octave + 1) * 12 + (natural + adj))
      else none
    else none

/-- Modelled from the spec: UTF-16 decoding where each malformed unit is
replaced by U+FFFD in the resulting string (the spec says replaced
rather than failing). -/
def decodeUnitsReplaceSpec : List Nat → List Char
  | [] => []
  | [u] => if u < 0xD800 ∨ 0xE000 ≤ u then [Char.ofNat u] else ['�']
  | u :: v :: rest =>
    if u < 0xD800 ∨ 0xE000 ≤ u then
      Char.ofNat u :: decodeUnitsReplaceSpec (v :: rest)
    else if u < 0xDC00 then
      if 0xDC00 ≤ v ∧ v < 0xE000 then
        Char.ofNat (0x10000 + (u - 0xD800) * 0x400 + (v - 0xDC00)) ::
          decodeUnitsReplaceSpec rest
      else '�' :: decodeUnitsReplaceSpec (v :: rest)
    else '�' :: decodeUnitsReplaceSpec (v :: rest)

/-- Modelled from the spec: full replacement decode of UTF-16BE bytes. -/
def decodeUtf16ReplaceSpec (bs : List Nat) : String :=
  ⟨decodeUnitsReplaceSpec (utf16Units bs)⟩

/-! ## Frame walker (frames.py) -/

/-- Permitted tag alphabet: digits, upper and lower ASCII letters and
underscore (frames.ASCII_OK). -/
def tagByteOk (b : Nat) : Bool :=
  (48 ≤ b ∧ b ≤ 57) ∨ (65 ≤ b ∧ b ≤ 90) ∨ b = 95 ∨ (97 ≤ b ∧ b ≤ 122)

/-- frames.looks_like_id of the 4-byte slice starting at p: the Python
slice has length 4 exactly when p + 4 is within the buffer. -/
def looksLikeId (data : List Nat) (p : Nat) : Bool :=
  p + 4 ≤ data.length && ((data.drop p).take 4).all tagByteOk

/-- FrameNode as yielded by the walker.  id4 carries the tag bytes
(ascii decode of an alphabet tag is the identity); start is the offset
of the header (pstart - 8 in the source); endPos is the payload end. -/
structure FrameNode where
  id4 : List Nat
  start : Nat
  endPos : Nat
  children_count : Nat
deriving DecidableEq, Repr

/-- FrameWalker._count_children loop, with fuel: counts sequential
well-formed immediate children from pos, stopping at the first
unrecognised tag or header fault. -/
def ccAux : Nat → List Nat → Nat → Nat → Nat
  | 0, _, _, _ => 0
  | fuel + 1, data, pos, e =>
    if pos + 8 ≤ e then
      if looksLikeId data pos then
        match read_frame_header data e pos with
        | some (_, _, cend) => 1 + ccAux fuel data cend e
        | none => 0
      else 0
    else 0

/-- FrameWalker._count_children over a region; the fuel e - s suffices
because every counted child consumes at least 8 bytes. -/
def countChildren (data : List Nat) (s e : Nat) : Nat :=
  ccAux (e - s) data s e

/-- FrameWalker.walk with fuel.  The header read is inlined so the
position of the cursor when an exception is caught is explicit: the
Python read_frame_header advances 4 bytes for the tag and 4 for the
length before the bounds check, so on a bounds fault (ValueError) the
resync lands at pos + 9, and on a short-buffer fault of the length read
(struct.error, after only the tag advanced) it lands at pos + 5. -/
def walkAux : Nat → List Nat → Nat → Nat → List FrameNode
  | 0, _, _, _ => []
  | fuel + 1, data, pos, e =>
    if pos + 8 ≤ e then
      if looksLikeId data pos then
        if pos + 8 ≤ data.length then
          let size := be32 data (pos + 4)
          if pos + 8 + size ≤ e then
            { id4 := fidAt data pos, start := pos, endPos := pos + 8 + size,
              children_count := countChildren data (pos + 8) (pos + 8 + size) } ::
              (walkAux fuel data (pos + 8) (pos + 8 + size) ++
                walkAux fuel data (pos + 8 + size) e)
          else walkAux fuel data (pos + 9) e
        else walkAux fuel data (pos + 5) e
      else walkAux fuel data (pos + 1) e
    else []

/-- FrameWalker.walk over a byte range; the fuel e - s suffices because
every step strictly shrinks the remaining range. -/
def walk (data : List Nat) (s e : Nat) : List FrameNode :=
  walkAux (e - s) data s e

/-- Buffer for the claim C5 counterexample: a plausible tag AAAA with an
impossible declared length, immediately followed at offset 8 by the
fully valid empty frame BBBB. -/
def cexBuf5 : List Nat :=
  [65, 65, 65, 65, 255, 255, 255, 255, 66, 66, 66, 66, 0, 0, 0, 0]

/-- A byte region contains no discoverable frame: no position holds four
permitted tag bytes followed by a length that fits the region.  This is
what leaf bytes means for a well-formed buffer: a payload that did parse
as frames would be a concatenation of frames, not leaf bytes. -/
def noSpurious (data : List Nat) (a b : Nat) : Prop :=
  ∀ p, a ≤ p → p + 8 ≤ b →
    ¬ (looksLikeId data p = true ∧ p + 8 + be32 data (p + 4) ≤ b)

/-- Well-formed nested-frame region: a concatenation of frames whose
payloads are recursively either concatenations of frames or leaf bytes.
The relation is indexed by the number of top-level frames and by the
node list a correct depth-first pre-order walk must produce, each node
carrying the true count of its immediate child frames. -/
inductive WfForest (data : List Nat) : Nat → Nat → Nat → List FrameNode → Prop
  | nil (e : Nat) : WfForest data e e 0 []
  | consNode (s e pend k kc : Nat) (inner rest : List FrameNode)
      (hid : looksLikeId data s = true)
      (hpend : pend = s + 8 + be32 data (s + 4))
      (hle : pend ≤ e)
      (hpl : WfForest data (s + 8) pend kc inner)
      (hrest : WfForest data pend e k rest) :
      WfForest data s e (k + 1)
        ({ id4 := fidAt data s, start := s, endPos := pend,
           children_count := kc } :: (inner ++ rest))
  | consLeaf (s e pend k : Nat) (rest : List FrameNode)
      (hid : looksLikeId data s = true)
      (hpend : pend = s + 8 + be32 data (s + 4))
      (hle : pend ≤ e)
      (hpl : noSpurious data (s + 8) pend)
      (hrest : WfForest data pend e k rest) :
      WfForest data s e (k + 1)
        ({ id4 := fidAt data s, start := s, endPos := pend,
           children_count := 0 } :: rest)

/-- Two-frame witness buffer for the walker pre-order claim: a frame
AAAA whose payload is exactly one empty frame BBBB. -/
def c3WitBuf : List Nat :=
  [65, 65, 65, 65, 0, 0, 0, 8, 66, 66, 66, 66, 0, 0, 0, 0]

/-! ## Enum catalogue (enums.py)

Enum casting in the source builds an IntEnum (still an int) and maps a
ValueError to None; each cast is modelled as a partial identity on the
valid value set. -/

def castMappingType (v : Nat) : Option Nat :=
  if v = 0 ∨ v = 1 then some v else none

def castControllerType (v : Nat) : Option Nat :=
  if v = 0 ∨ v = 1 ∨ v = 2 ∨ v = 65535 then some v else none

def castInteractionMode (v : Nat) : Option Nat :=
  if 1 ≤ v ∧ v ≤ 8 then some v else none

def castDeckScope (v : Int) : Option Int :=
  if -1 ≤ v ∧ v ≤ 15 then some v else none

def castResolution (v : Nat) : Option Nat :=
  if v = 0x3C800000 ∨ v = 0x3D800000 ∨ v = 0x3E000000 ∨ v = 0x3F000000 then
    some v else none

def castEncoderMode (v : Nat) : Option Nat :=
  if v = 0 ∨ v = 1 then some v else none

/-! ## Parser helpers (parser.py) -/

/-- parser._to_s32 on a present value: reinterpret a u32 as signed. -/
def toS32 (u : Nat) : Int :=
  if 0x7FFFFFFF < u then (u : Int) - 0x100000000 else (u : Int)

/-- Exponent field of a float32 bit pattern. -/
def f32Exp (bits : Nat) : Nat := bits / 8388608 % 256

/-- Mantissa field of a float32 bit pattern. -/
def f32Man (bits : Nat) : Nat := bits % 8388608

/-- NaN test on the bit pattern (exponent all ones, mantissa nonzero). -/
def f32IsNaN (bits : Nat) : Bool := f32Exp bits = 255 ∧ f32Man bits ≠ 0

/-- Magnitude-below-1e-20 test, decided exactly: a zero or denormal is
always below; otherwise the value is (2^23+man)*2^(exp-150) and the
comparison against 10^-20 clears denominators.  (No float32 value lies
between the double nearest 1e-20 and the exact rational 10^-20, so this
agrees with the Python comparison for every float32 input.) -/
def f32AbsLt1e20 (bits : Nat) : Bool :=
  if f32Exp bits = 0 then true
  else (8388608 + f32Man bits) * 10 ^ 20 * 2 ^ f32Exp bits < 2 ^ 150

/-- parser._clean_f on a float32 bit pattern: NaN or magnitude below
1e-20 normalises to absent. -/
def cleanF32 (bits : Nat) : Option Nat :=
  if f32IsNaN bits then none
  else if f32AbsLt1e20 bits then none
  else some bits

/-- parser._clean_f on an optional value. -/
def cleanFOpt (v : Option Nat) : Option Nat := v.bind cleanF32

/-- Lookup in a Python dict modelled as an insertion list: the value of
the latest insertion for the key wins, as with dict assignment. -/
def dget {K V : Type} [BEq K] (l : List (K × V)) (k : K) : Option V :=
  (l.reverse.find? (fun p => p.1 == k)).map (·.2)

/-- Tag byte constants (ascii) used by the parser. -/
def tagDEVI : List Nat := [68, 69, 86, 73]
def tagDDAT : List Nat := [68, 68, 65, 84]
def tagDDIF : List Nat := [68, 68, 73, 70]
def tagDDDC : List Nat := [68, 68, 68, 67]
def tagDDCB : List Nat := [68, 68, 67, 66]
def tagDDCI : List Nat := [68, 68, 67, 73]
def tagDDCO : List Nat := [68, 68, 67, 79]
def tagDCDT : List Nat := [68, 67, 68, 84]
def tagDCBM : List Nat := [68, 67, 66, 77]
def tagCMAS : List Nat := [67, 77, 65, 83]
def tagCMAI : List Nat := [67, 77, 65, 73]
def tagCMAD : List Nat := [67, 77, 65, 68]

/-- Checked u32 read, the parser-local _u32 helper: absent (without
advancing) when fewer than 4 bytes remain before the declared end e,
crashing (outer none) only when the underlying buffer is short.  The
_f32 helper is identical with the float carried as its bit pattern. -/
def cu32 (data : List Nat) (e off : Nat) : Option (Option Nat × Nat) :=
  if off + 4 ≤ e then
    match u32 data off with
    | some (v, o) => some (some v, o)
    | none => none
  else some (none, off)

/-- Checked length-prefixed wide string, the parser-local _wstr_raw
helper: safe when truncated (the byte length is clamped to the declared
end), raw bytes kept when nonempty. -/
def cwstr (data : List Nat) (e off : Nat) :
    Option (String × Option (List Nat) × Nat) :=
  if off + 4 ≤ e then
    match u32 data off with
    | some (n, o) =>
      let bytelen := if e < o + n * 2 then e - o else n * 2
      let (raw, o2) := bytesN data o bytelen
      some (decodeUtf16Ignore raw, (if bytelen = 0 then none else some raw), o2)
    | none => none
  else some ("", none, off)

/-- Decoded CMAD settings frame: every optional field of the fixed head,
the conditional LED/resolution tail, plus the cursor bookkeeping needed
to state the tail-acceptance claim (headEnd is the cursor after the
fixed head, finalOff the cursor after the conditional tail was either
committed or discarded). -/
structure CmadOut where
  unknown1 : Option Nat := none
  ctypeV : Option Nat := none
  imodeV : Option Nat := none
  deckU : Option Nat := none
  autoRep : Option Nat := none
  inv : Option Nat := none
  softT : Option Nat := none
  sens : Option Nat := none
  acc : Option Nat := none
  unk10 : Option Nat := none
  unk11 : Option Nat := none
  setv : Option Nat := none
  comment : String := ""
  commentRaw : Option (List Nat) := none
  mod1id : Option Nat := none
  unk15 : Option Nat := none
  mod1v : Option Nat := none
  mod2id : Option Nat := none
  unk18 : Option Nat := none
  mod2v : Option Nat := none
  unk20 : Option Nat := none
  ledMinC : Option Nat := none
  ledMaxC : Option Nat := none
  ledMinM : Option Nat := none
  ledMaxM : Option Nat := none
  ledInv : Option Nat := none
  ledBlend : Option Nat := none
  resDword : Option Nat := none
  headEnd : Nat := 0
  finalOff : Nat := 0
deriving DecidableEq, Repr

/-- Sequential checked u32 reads (the repeated _u32 helper calls of the
CMAD fixed head): k reads from off against declared end e, collecting
the optional values in order; only an underlying-buffer overrun fails. -/
def cu32Seq (data : List Nat) (e : Nat) : Nat → Nat → Option (List (Option Nat) × Nat)
  | 0, off => some ([], off)
  | k + 1, off =>
    match cu32 data e off with
    | none => none
    | some (v, o) =>
      match cu32Seq data e k o with
      | none => none
      | some (vs, o2) => some (v :: vs, o2)

/-- Sequential raw u32 reads (the unchecked reads of the conditional
tail, taken through a fresh reader): k reads from off, all mandatory. -/
def u32Seq (data : List Nat) : Nat → Nat → Option (List Nat × Nat)
  | 0, off => some ([], off)
  | k + 1, off =>
    match u32 data off with
    | none => none
    | some (v, o) =>
      match u32Seq data k o with
      | none => none
      | some (vs, o2) => some (v :: vs, o2)

/-- CMAD settings decode, parser._read_mapping lines 269 to 363: the
fixed head read with checked helpers (12 checked u32 slots, the comment,
7 modifier slots), then the conditional LED and resolution tail,
attempted only for an OUT mapping with at least 40 bytes remaining,
committed only when consuming exactly 40 bytes lands exactly at the
frame end and both MIDI range bytes are at most 127.  The tail is read
through a fresh unchecked reader, so the main cursor (finalOff) moves to
the frame end only on commit. -/
def readSettings (data : List Nat) (sstart send mtypeV : Nat) :
    Option CmadOut :=
  match cu32Seq data send 12 sstart with
  | none => none
  | some (hs, o12) =>
    match cwstr data send o12 with
    | none => none
    | some (cm, cmRaw, o13) =>
      match cu32Seq data send 7 o13 with
      | none => none
      | some (ms, o20) =>
        let base : CmadOut :=
          { unknown1 := hs.getD 0 none, ctypeV := hs.getD 1 none,
            imodeV := hs.getD 2 none, deckU := hs.getD 3 none,
            autoRep := hs.getD 4 none, inv := hs.getD 5 none,
            softT := hs.getD 6 none, sens := hs.getD 7 none,
            acc := hs.getD 8 none, unk10 := hs.getD 9 none,
            unk11 := hs.getD 10 none, setv := hs.getD 11 none,
            comment := cm, commentRaw := cmRaw,
            mod1id := ms.getD 0 none, unk15 := ms.getD 1 none,
            mod1v := ms.getD 2 none, mod2id := ms.getD 3 none,
            unk18 := ms.getD 4 none, mod2v := ms.getD 5 none,
            unk20 := ms.getD 6 none,
            headEnd := o20, finalOff := o20 }
        if mtypeV = 1 ∧ 40 ≤ send - o20 then
          match u32Seq data 10 o20 with
          | none => none
          | some (ts, p10) =>
            if p10 = send ∧ ts.getD 3 0 ≤ 127 ∧ ts.getD 4 0 ≤ 127 then
              some { base with
                ledMinC := cleanF32 (ts.getD 0 0),
                ledMaxC := cleanF32 (ts.getD 2 0),
                ledMinM := some (ts.getD 3 0), ledMaxM := some (ts.getD 4 0),
                ledInv := some (ts.getD 5 0), ledBlend := some (ts.getD 6 0),
                resDword := some (ts.getD 8 0), finalOff := send }
            else some base
        else some base

/-- Decoded mapping row (models.MappingRow).  Hex-string raw fields are
carried as the raw byte lists; floats as bit patterns. -/
structure MappingRow where
  device_name : String
  device_target : Nat
  traktor_control_id : Nat
  midi_binding_id : Nat
  device_name_raw : List Nat := []
  mapping_type : Option Nat := none
  midi_note : Option String := none
  midi_note_raw : Option (List Nat) := none
  midi_channel : Option Int := none
  midi_event : Option String := none
  midi_number : Option Int := none
  midi_note_name : Option String := none
  midi_encoder_mode : Option Nat := none
  midi_default_velocity : Option Nat := none
  midi_control_id : Option Int := none
  controller_type : Option Nat := none
  interaction_mode : Option Nat := none
  deck_scope : Option Int := none
  auto_repeat : Option Nat := none
  invert : Option Nat := none
  soft_takeover : Option Nat := none
  rotary_sensitivity : Option Nat := none
  rotary_acceleration : Option Nat := none
  set_value_to : Option Nat := none
  mod1_id : Option Nat := none
  mod1_val : Option Nat := none
  mod2_id : Option Nat := none
  mod2_val : Option Nat := none
  led_min_controller : Option Nat := none
  led_max_controller : Option Nat := none
  led_min_midi : Option Nat := none
  led_max_midi : Option Nat := none
  led_invert : Option Nat := none
  led_blend : Option Nat := none
  resolution_raw : Option Nat := none
  comment : Option String := none
  comment_raw : Option (List Nat) := none
  mapping_type_raw : Option Nat := none
  controller_type_raw : Option Nat := none
  interaction_mode_raw : Option Nat := none
  deck_scope_raw : Option Nat := none
  resolution_dword : Option Nat := none
deriving DecidableEq, Repr

/-- The sorted key list of parser._note_to_number_fallback: keys of the
base table sorted by length descending (Python sort is stable, so the
insertion order is kept within each length). -/
def fallbackKeys : List (List Char × Int) :=
  [("C#".data, 1), ("Db".data, 1), ("D#".data, 3), ("Eb".data, 3),
   ("F#".data, 6), ("Gb".data, 6), ("G#".data, 8), ("Ab".data, 8),
   ("A#".data, 10), ("Bb".data, 10),
   ("C".data, 0), ("D".data, 2), ("E".data, 4), ("F".data, 5),
   ("G".data, 7), ("A".data, 9), ("B".data, 11)]

/-- parser._note_to_number_fallback: strip, find the first key that is a
prefix of the name, parse the remainder as an integer octave; any parse
failure yields absent immediately. -/
def noteFallback (nn : String) : Option Int :=
  let name := pyStrip nn.data
  match fallbackKeys.find? (fun p => name.take p.1.length == p.1) with
  | some p =>
    match pyInt (name.drop p.1.length) with
    | some oct => some (12 * (oct + 1) + p.2)
    | none => none
  | none => none

/-- Binding-table and definition-table enrichment shared by the full and
the minimal row (parser.py lines 394 to 416 and 479 to 494): binding
name resolution, binding-string parsing with the note-name fallback,
definition lookup guarded by string truthiness, and the all-ones
control-id sentinel. -/
def enrich (binds : List (Nat × String)) (bindsRaw : List (Nat × List Nat))
    (defs : List (String × (Nat × Nat × Nat))) (bid : Nat) :
    Option String × Option (List Nat) × BindResult ×
      (Option Nat × Option Nat × Option Nat) :=
  let bindingName := dget binds bid
  let bindingRaw := dget bindsRaw bid
  let br := parseBindingName bindingName
  let number :=
    match br.number, br.noteName with
    | none, some nn => if nn = "" then none else noteFallback nn
    | n, _ => n
  let vec :=
    match bindingName with
    | some bn =>
      if bn = "" then (none, none, none)
      else
        match dget defs bn with
        | some (v, em, c) => (some v, some em, some c)
        | none => (none, none, none)
    | none => (none, none, none)
  (bindingName, bindingRaw, { br with number := number }, vec)

/-- Full row assembly, parser._read_mapping lines 365 to 462: the
direct-mode gate on set_value_to, enum casts with raw preservation, and
enrichment. -/
def assembleRow (dn : String) (dnRaw : List Nat) (dt : Nat)
    (mtypeV cid bid : Nat)
    (binds : List (Nat × String)) (bindsRaw : List (Nat × List Nat))
    (defs : List (String × (Nat × Nat × Nat))) (st : CmadOut) : MappingRow :=
  let setv :=
    match st.imodeV with
    | some im => if im ≠ 3 then none else cleanFOpt st.setv
    | none => none
  let comment := if st.comment = "" then none else some st.comment
  let (bindingName, bindingRaw, br, vec) := enrich binds bindsRaw defs bid
  let (vel, encRaw, ctrlId) := vec
  let ctrlIdOut : Option Int :=
    ctrlId.map (fun c => if c = 0xFFFFFFFF then (-1 : Int) else (c : Int))
  { device_name := dn, device_target := dt, device_name_raw := dnRaw,
    mapping_type := castMappingType mtypeV,
    traktor_control_id := cid, midi_binding_id := bid,
    midi_note := bindingName, midi_note_raw := bindingRaw,
    midi_channel := br.channel, midi_event := br.event,
    midi_number := br.number, midi_note_name := br.noteName,
    midi_encoder_mode := encRaw.bind castEncoderMode,
    midi_default_velocity := cleanFOpt vel,
    midi_control_id := ctrlIdOut,
    controller_type := st.ctypeV.bind castControllerType,
    interaction_mode := st.imodeV.bind castInteractionMode,
    deck_scope := (st.deckU.map toS32).bind castDeckScope,
    auto_repeat := st.autoRep, invert := st.inv, soft_takeover := st.softT,
    rotary_sensitivity := st.sens, rotary_acceleration := st.acc,
    set_value_to := setv,
    mod1_id := st.mod1id, mod1_val := st.mod1v,
    mod2_id := st.mod2id, mod2_val := st.mod2v,
    led_min_controller := st.ledMinC, led_max_controller := st.ledMaxC,
    led_min_midi := st.ledMinM, led_max_midi := st.ledMaxM,
    led_invert := st.ledInv, led_blend := st.ledBlend,
    resolution_raw := st.resDword.bind castResolution,
    comment := comment, comment_raw := st.commentRaw,
    mapping_type_raw := some mtypeV,
    controller_type_raw := st.ctypeV,
    interaction_mode_raw := st.imodeV,
    deck_scope_raw := st.deckU,
    resolution_dword := st.resDword }

/-- Minimal row, parser._build_row_minimal: identity plus enrichment
only (note the default velocity is not float-sanitised here, unlike the
full row). -/
def buildRowMinimal (dn : String) (dnRaw : List Nat) (dt : Nat)
    (mtypeV cid bid : Nat)
    (binds : List (Nat × String)) (bindsRaw : List (Nat × List Nat))
    (defs : List (String × (Nat × Nat × Nat))) : MappingRow :=
  let (bindingName, bindingRaw, br, vec) := enrich binds bindsRaw defs bid
  let (vel, encRaw, ctrlId) := vec
  let ctrlIdOut : Option Int :=
    ctrlId.map (fun c => if c = 0xFFFFFFFF then (-1 : Int) else (c : Int))
  { device_name := dn, device_target := dt, device_name_raw := dnRaw,
    mapping_type := castMappingType mtypeV,
    traktor_control_id := cid, midi_binding_id := bid,
    midi_note := bindingName, midi_note_raw := bindingRaw,
    midi_channel := br.channel, midi_event := br.event,
    midi_number := br.number, midi_note_name := br.noteName,
    midi_encoder_mode := encRaw.bind castEncoderMode,
    midi_default_velocity := vel,
    midi_control_id := ctrlIdOut,
    mapping_type_raw := some mtypeV }

/-- One mapping entry, parser._read_mapping head: three raw u32 reads,
the nested settings header (a bounds fault propagates), then either the
settings decode or the minimal-row degradation when the nested tag is
not CMAD. -/
def readMapping (data : List Nat) (s e : Nat) (dn : String)
    (dnRaw : List Nat) (dt : Nat)
    (binds : List (Nat × String)) (bindsRaw : List (Nat × List Nat))
    (defs : List (String × (Nat × Nat × Nat))) : Option MappingRow :=
  match u32Seq data 3 s with
  | none => none
  | some (hv, o3) =>
    let bid := hv.getD 0 0
    let mtypeV := hv.getD 1 0
    let cid := hv.getD 2 0
    match read_frame_header data e o3 with
    | none => none
    | some (fid, sstart, send) =>
      if fid = tagCMAD then
        match readSettings data sstart send mtypeV with
        | none => none
        | some st =>
          some (assembleRow dn dnRaw dt mtypeV cid bid binds bindsRaw defs st)
      else
        some (buildRowMinimal dn dnRaw dt mtypeV cid bid binds bindsRaw defs)

/-- Count-driven loop of parser._read_mappings_list: count header reads,
each CMAI child decoded, others skipped. -/
def rmlGo (data : List Nat) (e : Nat) (dn : String) (dnRaw : List Nat)
    (dt : Nat) (binds : List (Nat × String)) (bindsRaw : List (Nat × List Nat))
    (defs : List (String × (Nat × Nat × Nat))) :
    Nat → Nat → Option (List MappingRow)
  | 0, _ => some []
  | k + 1, pos =>
    match read_frame_header data e pos with
    | none => none
    | some (fid, mstart, mend) =>
      if fid = tagCMAI then
        match readMapping data mstart mend dn dnRaw dt binds bindsRaw defs with
        | none => none
        | some row =>
          match rmlGo data e dn dnRaw dt binds bindsRaw defs k mend with
          | none => none
          | some rest => some (row :: rest)
      else rmlGo data e dn dnRaw dt binds bindsRaw defs k mend

/-- parser._read_mappings_list: unchecked count read then the loop. -/
def readMappingsList (data : List Nat) (s e : Nat) (dn : String)
    (dnRaw : List Nat) (dt : Nat)
    (binds : List (Nat × String)) (bindsRaw : List (Nat × List Nat))
    (defs : List (String × (Nat × Nat × Nat))) : Option (List MappingRow) :=
  match u32 data s with
  | none => none
  | some (count, o) => rmlGo data e dn dnRaw dt binds bindsRaw defs count o

/-- Count-driven loop of pass A over one DCBM list (parser.py lines 180
to 194): each inner DCBM entry contributes id to name and id to raw
bytes; other tags are skipped. -/
def bindGo (data : List Nat) (e : Nat) :
    Nat → Nat →
    List (Nat × String) × List (Nat × List Nat) →
    Option (List (Nat × String) × List (Nat × List Nat))
  | 0, _, st => some st
  | k + 1, pos, st =>
    match read_frame_header data e pos with
    | none => none
    | some (fid2, bstart, bend) =>
      if fid2 = tagDCBM then
        match u32Seq data 2 bstart with
        | none => none
        | some (bv, q2) =>
          let bid := bv.getD 0 0
          let nlen := bv.getD 1 0
          let (raw, _) := bytesN data q2 (nlen * 2)
          let name := decodeUtf16Ignore raw
          bindGo data e k bend (st.1 ++ [(bid, name)], st.2 ++ [(bid, raw)])
      else bindGo data e k bend st

/-- First pass of parser._parse_mappings_container: collect the child
frame slices by sequential header reads. -/
def slicesGo : Nat → List Nat → Nat → Nat →
    Option (List (List Nat × Nat × Nat))
  | 0, _, _, _ => some []
  | fuel + 1, data, pos, e =>
    if pos < e then
      match read_frame_header data e pos with
      | none => none
      | some (fid, cstart, cend) =>
        match slicesGo fuel data cend e with
        | none => none
        | some rest => some ((fid, cstart, cend) :: rest)
    else some []

/-- parser._parse_mappings_container: collect child slices, pass A over
every DCBM list building the binding tables, pass B over every CMAS
list decoding mappings against the completed tables. -/
def parseMappingsContainer (data : List Nat) (s e : Nat) (dn : String)
    (dnRaw : List Nat) (dt : Nat)
    (defs : List (String × (Nat × Nat × Nat))) : Option (List MappingRow) :=
  match slicesGo (e - s) data s e with
  | none => none
  | some slices =>
    match slices.foldlM
        (fun st sl =>
          if sl.1 = tagDCBM then
            match u32 data sl.2.1 with
            | none => none
            | some (count, o) => bindGo data sl.2.2 count o st
          else some st)
        (([], []) : List (Nat × String) × List (Nat × List Nat)) with
    | none => none
    | some tables =>
      slices.foldlM
        (fun rows sl =>
          if sl.1 = tagCMAS then
            match readMappingsList data sl.2.1 sl.2.2 dn dnRaw dt
                tables.1 tables.2 defs with
            | none => none
            | some lst => some (rows ++ lst)
          else some rows) ([] : List MappingRow)

/-- Count-driven loop of parser._parse_midi_definitions._scan_list over
DCDT entries. -/
def scanGo (data : List Nat) (e : Nat) :
    Nat → Nat → List (String × (Nat × Nat × Nat)) →
    Option (List (String × (Nat × Nat × Nat)))
  | 0, _, st => some st
  | k + 1, pos, st =>
    match read_frame_header data e pos with
    | none => none
    | some (fid2, dstart, dend) =>
      if fid2 = tagDCDT then
        match u32 data dstart with
        | none => none
        | some (nlen, q1) =>
          let (raw, q2) := bytesN data q1 (nlen * 2)
          let name := decodeUtf16Ignore raw
          match u32Seq data 5 q2 with
          | none => none
          | some (vv, _) =>
            scanGo data e k dend
              (st ++ [(name, (vv.getD 2 0, vv.getD 3 0, vv.getD 4 0))])
      else scanGo data e k dend st

/-- Child loop of parser._parse_midi_definitions over DDCI and DDCO. -/
def midiDefsGo : Nat → List Nat → Nat → Nat →
    List (String × (Nat × Nat × Nat)) →
    Option (List (String × (Nat × Nat × Nat)))
  | 0, _, _, _, st => some st
  | fuel + 1, data, pos, e, st =>
    if pos < e then
      match read_frame_header data e pos with
      | none => none
      | some (fid, cstart, cend) =>
        if fid = tagDDCI ∨ fid = tagDDCO then
          match u32 data cstart with
          | none => none
          | some (count, o) =>
            match scanGo data cend count o st with
            | none => none
            | some st2 => midiDefsGo fuel data cend e st2
        else midiDefsGo fuel data cend e st
    else some st

/-- parser._parse_midi_definitions over a DDDC payload. -/
def parseMidiDefs (data : List Nat) (s e : Nat) :
    Option (List (String × (Nat × Nat × Nat))) :=
  midiDefsGo (e - s) data s e []

/-- Child loop of parser._parse_device_data: a DDIF child resets the
device target (an unchecked u32), a DDDC child extends the definition
table, a DDCB child is decoded with the then-current target and table. -/
def devDataGo : Nat → List Nat → Nat → Nat → String → List Nat →
    Nat → List (String × (Nat × Nat × Nat)) → List MappingRow →
    Option (List MappingRow)
  | 0, _, _, _, _, _, _, _, rows => some rows
  | fuel + 1, data, pos, e, dn, dnRaw, dt, defs, rows =>
    if pos < e then
      match read_frame_header data e pos with
      | none => none
      | some (fid, cstart, cend) =>
        if fid = tagDDIF then
          match u32 data cstart with
          | none => none
          | some (t, _) => devDataGo fuel data cend e dn dnRaw t defs rows
        else if fid = tagDDDC then
          match parseMidiDefs data cstart cend with
          | none => none
          | some newDefs =>
            devDataGo fuel data cend e dn dnRaw dt (defs ++ newDefs) rows
        else if fid = tagDDCB then
          match parseMappingsContainer data cstart cend dn dnRaw dt defs with
          | none => none
          | some lst => devDataGo fuel data cend e dn dnRaw dt defs (rows ++ lst)
        else devDataGo fuel data cend e dn dnRaw dt defs rows
    else some rows

/-- parser._parse_device_data over a DDAT payload. -/
def parseDeviceData (data : List Nat) (s e : Nat) (dn : String)
    (dnRaw : List Nat) : Option (List MappingRow) :=
  devDataGo (e - s) data s e dn dnRaw 0 [] []

/-- Child loop of parser._parse_device: every DDAT child decoded. -/
def devGo : Nat → List Nat → Nat → Nat → String → List Nat →
    List MappingRow → Option (List MappingRow)
  | 0, _, _, _, _, _, rows => some rows
  | fuel + 1, data, pos, e, dn, dnRaw, rows =>
    if pos < e then
      match read_frame_header data e pos with
      | none => none
      | some (fid, cstart, cend) =>
        if fid = tagDDAT then
          match parseDeviceData data cstart cend dn dnRaw with
          | none => none
          | some lst => devGo fuel data cend e dn dnRaw (rows ++ lst)
        else devGo fuel data cend e dn dnRaw rows
    else some rows

/-- parser._parse_device over a DEVI payload: unchecked name-length
read, raw UTF-16BE device name, then the child loop. -/
def parseDevice (data : List Nat) (s e : Nat) : Option (List MappingRow) :=
  match u32 data s with
  | none => none
  | some (nlen, o) =>
    let (dnRaw, o2) := bytesN data o (nlen * 2)
    devGo (e - o2) data o2 e (decodeUtf16Ignore dnRaw) dnRaw []

/-- TsiParser.parse: walk the whole buffer, decode every DEVI node in
discovery order; any exception inside a device decode propagates and
aborts the whole parse (there is no try/except in parser.py). -/
def parse (data : List Nat) : Option (List MappingRow) :=
  (walk data 0 data.length).foldlM
    (fun acc node =>
      if node.id4 = tagDEVI then
        (parseDevice data (node.start + 8) node.endPos).map (acc ++ ·)
      else some acc) []

/-! ## Concrete buffers for the end-to-end claims -/

/-- Big-endian 4-byte encoding of a 32-bit value. -/
def be32enc (n : Nat) : List Nat :=
  [n / 16777216 % 256, n / 65536 % 256, n / 256 % 256, n % 256]

/-- UTF-16BE encoding of a basic-plane string. -/
def utf16beEnc (s : String) : List Nat :=
  s.data.foldr (fun c acc => (c.toNat / 256) :: (c.toNat % 256) :: acc) []

/-- Frame encoding: ascii tag, big-endian payload length, payload. -/
def frameEnc (tag : String) (payload : List Nat) : List Nat :=
  (tag.data.map Char.toNat) ++ be32enc payload.length ++ payload

/-- CMAD payload of the end-to-end claim: controller type 1, interaction
mode 3, deck scope all-ones, every other field zero. -/
def c1CmadPayload : List Nat :=
  be32enc 0 ++ be32enc 1 ++ be32enc 3 ++ be32enc 0xFFFFFFFF ++
    List.replicate 32 0 ++ be32enc 0 ++ List.replicate 28 0

/-- The synthetic end-to-end buffer of the spec: one device frame named
Pad, one data frame whose target-info child sets the device target to 1,
one mappings container with one binding list (id 5 to Ch01.CC.010) and
one mapping list (binding id 5, mapping type 0, controller id 42, the
settings frame above). -/
def c1Buf : List Nat :=
  frameEnc "DEVI" (be32enc 3 ++ utf16beEnc "Pad" ++
    frameEnc "DDAT" (frameEnc "DDIF" (be32enc 1) ++
      frameEnc "DDCB" (
        frameEnc "DCBM" (be32enc 1 ++
          frameEnc "DCBM" (be32enc 5 ++ be32enc 11 ++ utf16beEnc "Ch01.CC.010")) ++
        frameEnc "CMAS" (be32enc 1 ++
          frameEnc "CMAI" (be32enc 5 ++ be32enc 0 ++ be32enc 42 ++
            frameEnc "CMAD" c1CmadPayload)))))

/-- A device frame whose first child header declares an impossible
length (a malformed mapping container child), used for claim C6. -/
def c6BadDevice : List Nat :=
  frameEnc "DEVI" (be32enc 0 ++ "DDAT".data.map Char.toNat ++
    be32enc 0xFFFFFFFF)

/-- Buffer with the malformed device followed by the fully well-formed
device of the end-to-end claim. -/
def c6Buf : List Nat := c6BadDevice ++ c1Buf

/-- The one record the end-to-end buffer decodes to. -/
def c1Row : MappingRow :=
  { device_name := "Pad", device_target := 1, traktor_control_id := 42,
    midi_binding_id := 5,
    device_name_raw := [0, 80, 0, 97, 0, 100],
    mapping_type := some 0,
    midi_note := some "Ch01.CC.010",
    midi_note_raw := some [0, 67, 0, 104, 0, 48, 0, 49, 0, 46, 0, 67,
      0, 67, 0, 46, 0, 48, 0, 49, 0, 48],
    midi_channel := some 1, midi_event := some "CC", midi_number := some 10,
    controller_type := some 1, interaction_mode := some 3,
    deck_scope := some (-1),
    auto_repeat := some 0, invert := some 0, soft_takeover := some 0,
    rotary_sensitivity := some 0, rotary_acceleration := some 0,
    mod1_id := some 0, mod1_val := some 0, mod2_id := some 0,
    mod2_val := some 0,
    mapping_type_raw := some 0, controller_type_raw := some 1,
    interaction_mode_raw := some 3, deck_scope_raw := some 4294967295 }

/-- Witness mapping entry for the tail-invariant claim: an IN mapping
whose settings frame is exactly the 80-byte fixed head of zeros. -/
def c4WitBuf : List Nat :=
  be32enc 7 ++ be32enc 0 ++ be32enc 9 ++ frameEnc "CMAD" (List.replicate 80 0)

/-- Settings decode of the witness mapping entry. -/
def c4WitSt : CmadOut :=
  { unknown1 := some 0, ctypeV := some 0, imodeV := some 0, deckU := some 0,
    autoRep := some 0, inv := some 0, softT := some 0, sens := some 0,
    acc := some 0, unk10 := some 0, unk11 := some 0, setv := some 0,
    comment := "", commentRaw := none,
    mod1id := some 0, unk15 := some 0, mod1v := some 0, mod2id := some 0,
    unk18 := some 0, mod2v := some 0, unk20 := some 0,
    headEnd := 100, finalOff := 100 }

/-- Row decoded from the witness mapping entry. -/
def c4WitRow : MappingRow :=
  { device_name := "", device_target := 0, traktor_control_id := 9,
    midi_binding_id := 7,
    mapping_type := some 0, controller_type := some 0, deck_scope := some 0,
    auto_repeat := some 0, invert := some 0, soft_takeover := some 0,
    rotary_sensitivity := some 0, rotary_acceleration := some 0,
    mod1_id := some 0, mod1_val := some 0, mod2_id := some 0,
    mod2_val := some 0,
    mapping_type_raw := some 0, controller_type_raw := some 0,
    interaction_mode_raw := some 0, deck_scope_raw := some 0 }

/-! ## Abstract container content (for the order-independence claim)

A well-formed mappings container holds one binding-name list and one
mapping list.  The abstract content of a binding list is a list of
(id, name bytes) pairs; the abstract content of a mapping list is a
list of mapping entries, each carrying the three head words and the raw
bytes of its settings payload.  The Wf relations below say that a byte
region is exactly the serialization of such content. -/

/-- Abstract mapping entry: binding id, raw mapping type, controller id
and the raw bytes of the nested CMAD settings payload. -/
structure Ment where
  bid : Nat
  mt : Nat
  cid : Nat
  pl : List Nat

/-- The binding table a well-formed binding list produces. -/
def bindsOf (entries : List (Nat × List Nat)) : List (Nat × String) :=
  entries.map (fun p => (p.1, decodeUtf16Ignore p.2))

/-- The raw-bytes binding table a well-formed binding list produces. -/
def bindsRawOf (entries : List (Nat × List Nat)) : List (Nat × List Nat) :=
  entries

/-- Record decoded from one abstract mapping entry: the settings decode
over the standalone payload bytes, then row assembly. -/
def mentRow (dn : String) (dnRaw : List Nat) (dt : Nat)
    (binds : List (Nat × String)) (bindsRaw : List (Nat × List Nat))
    (defs : List (String × (Nat × Nat × Nat))) (m : Ment) :
    Option MappingRow :=
  match readSettings m.pl 0 m.pl.length m.mt with
  | none => none
  | some st =>
    some (assembleRow dn dnRaw dt m.mt m.cid m.bid binds bindsRaw defs st)

/-- Records decoded from an abstract mapping list (a failure aborts,
as in the source). -/
def mentRows (dn : String) (dnRaw : List Nat) (dt : Nat)
    (binds : List (Nat × String)) (bindsRaw : List (Nat × List Nat))
    (defs : List (String × (Nat × Nat × Nat))) :
    List Ment → Option (List MappingRow)
  | [] => some []
  | m :: rest =>
    match mentRow dn dnRaw dt binds bindsRaw defs m with
    | none => none
    | some r =>
      match mentRows dn dnRaw dt binds bindsRaw defs rest with
      | none => none
      | some rs => some (r :: rs)

/-- Byte region [q, qe) is exactly the serialization of the given
binding entries: each entry is a DCBM frame whose payload is the id,
the code-unit count and the UTF-16BE name bytes. -/
def WfBindEntries (data : List Nat) : Nat → Nat → List (Nat × List Nat) → Prop
  | q, qe, [] => q = qe
  | q, qe, (bid, nm) :: rest =>
    fidAt data q = tagDCBM ∧
    be32 data (q + 4) = 8 + nm.length ∧
    be32 data (q + 8) = bid ∧
    2 * be32 data (q + 12) = nm.length ∧
    (data.drop (q + 16)).take nm.length = nm ∧
    WfBindEntries data (q + 16 + nm.length) qe rest

/-- Byte region [q, qe) is exactly the serialization of the given
mapping entries: each is a CMAI frame holding three words and one
nested CMAD frame with the entry settings payload. -/
def WfMents (data : List Nat) : Nat → Nat → List Ment → Prop
  | q, qe, [] => q = qe
  | q, qe, m :: rest =>
    fidAt data q = tagCMAI ∧
    be32 data (q + 4) = 20 + m.pl.length ∧
    be32 data (q + 8) = m.bid ∧
    be32 data (q + 12) = m.mt ∧
    be32 data (q + 16) = m.cid ∧
    fidAt data (q + 20) = tagCMAD ∧
    be32 data (q + 24) = m.pl.length ∧
    (data.drop (q + 28)).take m.pl.length = m.pl ∧
    WfMents data (q + 28 + m.pl.length) qe rest

/-- Container region [s, e) with the binding list first: one DCBM child
frame (count then entries), then one CMAS child frame (count then
mapping entries), ending exactly at e. -/
def WfContainerD (data : List Nat) (s e : Nat)
    (entries : List (Nat × List Nat)) (ments : List Ment) : Prop :=
  ∃ d m,
    fidAt data s = tagDCBM ∧ be32 data (s + 4) = d ∧ 4 ≤ d ∧
    be32 data (s + 8) = entries.length ∧
    WfBindEntries data (s + 12) (s + 8 + d) entries ∧
    fidAt data (s + 8 + d) = tagCMAS ∧ be32 data (s + 8 + d + 4) = m ∧
    4 ≤ m ∧ be32 data (s + 8 + d + 8) = ments.length ∧
    WfMents data (s + 8 + d + 12) (s + 8 + d + 8 + m) ments ∧
    e = s + 8 + d + 8 + m

/-- Container region [s, e) with the mapping list first: one CMAS child
frame, then one DCBM child frame, ending exactly at e. -/
def WfContainerC (data : List Nat) (s e : Nat)
    (entries : List (Nat × List Nat)) (ments : List Ment) : Prop :=
  ∃ m d,
    fidAt data s = tagCMAS ∧ be32 data (s + 4) = m ∧ 4 ≤ m ∧
    be32 data (s + 8) = ments.length ∧
    WfMents data (s + 12) (s + 8 + m) ments ∧
    fidAt data (s + 8 + m) = tagDCBM ∧ be32 data (s + 8 + m + 4) = d ∧
    4 ≤ d ∧ be32 data (s + 8 + m + 8) = entries.length ∧
    WfBindEntries data (s + 8 + m + 12) (s + 8 + m + 8 + d) entries ∧
    e = s + 8 + m + 8 + d

set_option maxRecDepth 10000 in
/-- The DCBM-first container bytes of the end-to-end buffer, standalone
(the DDCB payload of c1Buf). -/
def c2BufD : List Nat :=
  frameEnc "DCBM" (be32enc 1 ++
    frameEnc "DCBM" (be32enc 5 ++ be32enc 11 ++ utf16beEnc "Ch01.CC.010")) ++
  frameEnc "CMAS" (be32enc 1 ++
    frameEnc "CMAI" (be32enc 5 ++ be32enc 0 ++ be32enc 42 ++
      frameEnc "CMAD" c1CmadPayload))

set_option maxRecDepth 10000 in
/-- The same container content with the children swapped: mapping list
first, binding list second. -/
def c2BufC : List Nat :=
  frameEnc "CMAS" (be32enc 1 ++
    frameEnc "CMAI" (be32enc 5 ++ be32enc 0 ++ be32enc 42 ++
      frameEnc "CMAD" c1CmadPayload)) ++
  frameEnc "DCBM" (be32enc 1 ++
    frameEnc "DCBM" (be32enc 5 ++ be32enc 11 ++ utf16beEnc "Ch01.CC.010"))

/-- All LED and resolution fields of a record are absent. -/
def LedAbsent (row : MappingRow) : Prop :=
  row.led_min_controller = none ∧ row.led_max_controller = none ∧
  row.led_min_midi = none ∧ row.led_max_midi = none ∧
  row.led_invert = none ∧ row.led_blend = none ∧
  row.resolution_raw = none ∧ row.resolution_dword = none

/-- The acceptance condition of the conditional CMAD tail: mapping type
raw is OUT, at least 40 bytes remain after the fixed head, consuming
exactly 40 bytes lands exactly at the settings-frame end, and both MIDI
range values lie in 0..127. -/
def TailAccept (data : List Nat) (send mtypeV headEnd : Nat) : Prop :=
  mtypeV = 1 ∧ 40 ≤ send - headEnd ∧ headEnd + 40 = send ∧
  be32 data (headEnd + 12) ≤ 127 ∧ be32 data (headEnd + 16) ≤ 127

theorem isPyDigit_ne {c : Char} (h : isPyDigit c = true) :
    c ≠ '#' ∧ c ≠ 'b' ∧ c ≠ '-' := by
  refine ⟨?_, ?_, ?_⟩ <;> rintro rfl <;> exact absurd h (by decide)

/-- Counterexample to claim C8: the tail E#3 matches the claimed pitch
grammar and the claimed formula gives 53, but the source looks the pair
letter-plus-accidental up in a table that has no E-sharp entry, so the
pitch parse fails, the numeric fallbacks fail, and the number is absent
with the tail kept as the note name. -/
theorem c8_counterexample :
    specPitchGrammar "E#3".data = true ∧
    specNoteNumber "E#3".data = some 53 ∧
    parseBindingName (some "Ch05.Note.E#3") =
      ⟨some 5, some "NOTE", none, some "E#3"⟩ := by
  refine ⟨by decide, by decide, by decide⟩

/-- Claim C8, amended: the three worked examples hold as stated, and the
pitch-name formula holds for exactly those letter-accidental combinations
present in the fixed table of midi.py (the regex-permitted combinations
E#, Fb, B# and Cb are absent from the table, so those tails fail the
pitch parse instead of obeying the formula). -/
theorem c8_binding_name_grammar :
    (parseBindingName (some "Ch07.CC.064") = ⟨some 7, some "CC", some 64, none⟩ ∧
     parseBindingName (some "Ch05.Note.C#3") = ⟨some 5, some "NOTE", some 49, some "C#3"⟩ ∧
     parseBindingName (some "Ch01.Note.0B") = ⟨some 1, some "NOTE", some 11, none⟩) ∧
    ∀ (c : Char) (acc : Option Char) (neg : Bool) (ds : List Char) (st : Int),
      isNoteLetter c = true →
      (acc = none ∨ acc = some '#' ∨ acc = some 'b') →
      ds ≠ [] → ds.all isPyDigit = true →
      semitone c.toUpper acc = some st →
      noteNameToNumber
        (c :: (acc.toList ++ (if neg then ['-'] else []) ++ ds)) =
      some (((if neg then -(digitsVal ds : Int) else (digitsVal ds : Int)) + 1) * 12 + st) := by
  refine ⟨⟨by decide, by decide, by decide⟩, ?_⟩
  intro c acc neg ds st hc hacc hne hall hst
  obtain ⟨d, ds', rfl⟩ := List.exists_cons_of_ne_nil hne
  have hd : isPyDigit d = true := by
    have := List.all_eq_true.mp hall d (by simp)
    exact this
  obtain ⟨hd1, hd2, hd3⟩ := isPyDigit_ne hd
  rcases hacc with rfl | rfl | rfl <;> cases neg <;>
    simp [noteNameToNumber, accSplit, signSplit, hc, hd1, hd2, hd3, hall, hst]

/-- Witness for c8_binding_name_grammar: the formula instantiated at the
concrete note C#3. -/
theorem c8_binding_name_grammar_witness :
    noteNameToNumber "C#3".data = some 49 := by
  have h := c8_binding_name_grammar.2 'C' (some '#') false ['3'] 1
    (by decide) (by simp) (by simp) (by decide) (by decide)
  simpa using h

/-! ## Walker fuel stability -/

theorem walkAux_congr :
    ∀ f1 f2 (data : List Nat) (pos e : Nat), e - pos ≤ f1 → e - pos ≤ f2 →
      walkAux f1 data pos e = walkAux f2 data pos e := by
  intro f1
  induction f1 with
  | zero =>
    intro f2 data pos e h1 _
    have hg : ¬ pos + 8 ≤ e := by omega
    cases f2 with
    | zero => rfl
    | succ m => simp [walkAux, hg]
  | succ n ih =>
    intro f2 data pos e h1 h2
    cases f2 with
    | zero =>
      have hg : ¬ pos + 8 ≤ e := by omega
      simp [walkAux, hg]
    | succ m =>
      simp only [walkAux]
      by_cases hg : pos + 8 ≤ e
      · simp only [if_pos hg]
        by_cases hid : looksLikeId data pos
        · simp only [if_pos hid]
          by_cases hlen : pos + 8 ≤ data.length
          · simp only [if_pos hlen]
            by_cases hb : pos + 8 + be32 data (pos + 4) ≤ e
            · simp only [if_pos hb]
              rw [ih m data (pos + 8) (pos + 8 + be32 data (pos + 4)) (by omega) (by omega),
                ih m data (pos + 8 + be32 data (pos + 4)) e (by omega) (by omega)]
            · simp only [if_neg hb]
              exact ih m data (pos + 9) e (by omega) (by omega)
          · simp only [if_neg hlen]
            exact ih m data (pos + 5) e (by omega) (by omega)
        · simp only [if_neg hid]
          exact ih m data (pos + 1) e (by omega) (by omega)
      · simp [hg]

theorem walk_eq_walkAux (f : Nat) (data : List Nat) (s e : Nat)
    (h : e - s ≤ f) : walk data s e = walkAux f data s e :=
  walkAux_congr (e - s) f data s e le_rfl h

/-! ## Claim C5 (resync after a header bounds fault) -/

/-- Counterexample to claim C5: at position 0 of cexBuf5 the four tag
bytes are in the permitted alphabet but the declared payload length
exceeds the scan range (a header fault), and a fully valid frame header
begins at position 8, inside the range p+1..p+8 the claim says is still
discovered after a one-byte resync; yet the walk yields nothing at all,
because the cursor had already advanced 8 bytes when the fault was
caught, so scanning resumes at p + 9, past the valid header. -/
theorem c5_counterexample :
    looksLikeId cexBuf5 0 = true ∧
    16 < 0 + 8 + be32 cexBuf5 4 ∧
    looksLikeId cexBuf5 8 = true ∧
    8 + 8 + be32 cexBuf5 12 ≤ 16 ∧
    walk cexBuf5 0 16 = [] := by
  refine ⟨by decide, by decide, by decide, by decide, by decide⟩

/-- Claim C5, amended: at a position p whose four tag bytes are
permitted but whose header read faults on the declared payload length,
the walker yields no node for p and resumes scanning at p + 9 (one byte
past the 8-byte header, the cursor having already consumed the header
when the exception was caught), so a frame beginning at p + 9 or later
is still discovered but one beginning in p+1..p+8 is not. -/
theorem c5_resync_lands_at_p9 (data : List Nat) (p e : Nat)
    (hg : p + 8 ≤ e) (hid : looksLikeId data p = true)
    (hlen : p + 8 ≤ data.length) (hfault : e < p + 8 + be32 data (p + 4)) :
    walk data p e = walk data (p + 9) e := by
  have h1 : e - p = (e - p - 1) + 1 := by omega
  rw [walk, h1]
  simp only [walkAux, if_pos hg, if_pos hid, if_pos hlen,
    if_neg (by omega : ¬ p + 8 + be32 data (p + 4) ≤ e)]
  exact (walk_eq_walkAux (e - p - 1) data (p + 9) e (by omega)).symm

/-- Witness for c5_resync_lands_at_p9 at the counterexample buffer. -/
theorem c5_resync_lands_at_p9_witness :
    walk cexBuf5 0 16 = walk cexBuf5 9 16 :=
  c5_resync_lands_at_p9 cexBuf5 0 16 (by decide) (by decide) (by decide)
    (by decide)

/-! ## Claim C7 (primitive reads versus the declared sub-view end) -/

/-- Counterexample to claim C7: over the 8-byte buffer 1..8 with a
sub-view whose declared end is 4 (strictly inside the buffer), the
primitive reads at offset 4 cross the declared end yet succeed and
return bytes drawn from beyond it (byte 5, the word 05060708, the slice
5,6) instead of signalling an out-of-bounds condition: the BER read
methods index the underlying buffer directly and never consult the
declared end. -/
theorem c7_counterexample :
    u8 [1,2,3,4,5,6,7,8] 4 = some (5, 5) ∧
    u32 [1,2,3,4,5,6,7,8] 4 = some (0x05060708, 8) ∧
    bytesN [1,2,3,4,5,6,7,8] 4 2 = ([5, 6], 6) := by
  refine ⟨by decide, by decide, by decide⟩

/-- Claim C7, amended: a primitive read whose extent would cross the end
of the underlying buffer fails, but the declared end of a sub-view is
never consulted: a read starting at or past the declared end e still
succeeds (drawing bytes from beyond e) whenever the underlying buffer is
long enough, and bytes(n) never fails at all. -/
theorem c7_reads_ignore_declared_end (data : List Nat) (e off n : Nat)
    (_he : e ≤ off) :
    (off < data.length → u8 data off = some (byteAt data off, off + 1)) ∧
    (data.length ≤ off → u8 data off = none) ∧
    (off + 4 ≤ data.length → u32 data off = some (be32 data off, off + 4)) ∧
    (data.length < off + 4 → u32 data off = none) ∧
    (off + 4 ≤ data.length → f32 data off = some (be32 data off, off + 4)) ∧
    bytesN data off n = ((data.drop off).take n, off + n) := by
  refine ⟨fun h => ?_, fun h => ?_, fun h => ?_, fun h => ?_, fun h => ?_, rfl⟩ <;>
    simp [u8, u32, f32, bytesN, h]

/-- Witness for c7_reads_ignore_declared_end: the concrete sub-view of
the counterexample buffer. -/
theorem c7_reads_ignore_declared_end_witness :
    u8 [1,2,3,4,5,6,7,8] 4 = some (byteAt [1,2,3,4,5,6,7,8] 4, 5) :=
  (c7_reads_ignore_declared_end [1,2,3,4,5,6,7,8] 4 4 2 (by decide)).1
    (by decide)

/-! ## Claim C9 (length-prefixed wide text never fails) -/

/-- Counterexample to claim C9: reading a count of 1 followed by the
single malformed unit D800 (a lone high surrogate) yields the empty
string: the source decodes with the ignore handler, which drops the
malformed unit, whereas the claim says it is replaced in the resulting
string (which would give the one-character replacement string). -/
theorem c9_counterexample :
    wstrPrefixed [0, 0, 0, 1, 0xD8, 0x00] 0 = some ("", 6) ∧
    decodeUtf16ReplaceSpec [0xD8, 0x00] = "�" ∧
    ("" : String) ≠ "�" := by
  refine ⟨by decide, by decide, by decide⟩

/-- Claim C9, amended: whenever the 32-bit code-unit count is readable
the read never fails (the payload slice silently truncates and the
ignore handler never raises), but malformed code units are dropped, not
replaced; well-formed basic-plane units decode normally. -/
theorem c9_wstr_total (data : List Nat) (off : Nat)
    (h : off + 4 ≤ data.length) :
    (wstrPrefixed data off).isSome = true ∧
    ∀ us : List Nat, (∀ u ∈ us, u < 0xD800) →
      decodeUnitsIgnore us = us.map Char.ofNat := by
  constructor
  · simp [wstrPrefixed, u32, h]
  · intro us hus
    induction us with
    | nil => simp [decodeUnitsIgnore]
    | cons u rest ih =>
      have hu : u < 0xD800 := hus u (by simp)
      have hrest : ∀ u ∈ rest, u < 0xD800 := fun v hv => hus v (by simp [hv])
      cases rest with
      | nil => simp [decodeUnitsIgnore, hu]
      | cons v rest2 =>
        have := ih hrest
        simp [decodeUnitsIgnore, hu, this]

/-- Witness for c9_wstr_total at the counterexample buffer. -/
theorem c9_wstr_total_witness :
    (wstrPrefixed [0, 0, 0, 1, 0xD8, 0x00] 0).isSome = true :=
  (c9_wstr_total [0, 0, 0, 1, 0xD8, 0x00] 0 (by decide)).1

/-! ## Claim C10 (partial result for a non-numeric channel) -/

/-- Claim C10: a binding name with the Ch prefix and at least three
dot-separated segments whose channel digits do not parse yields a
partial result: channel absent, event and tail interpretation still
computed, which is never the all-absent result. -/
theorem c10_partial_channel (s : String)
    (h0 : s.data ≠ [])
    (h1 : s.data.take 2 = "Ch".data)
    (h2 : 3 ≤ (splitOnChar '.' s.data).length)
    (h3 : pyInt (((splitOnChar '.' s.data).getD 0 []).drop 2) = none) :
    parseBindingName (some s) =
      ⟨none,
       some (tailInterp (normEvent ((splitOnChar '.' s.data).getD 1 []))
         (pyStrip ((splitOnChar '.' s.data).getD 2 []))).1,
       (tailInterp (normEvent ((splitOnChar '.' s.data).getD 1 []))
         (pyStrip ((splitOnChar '.' s.data).getD 2 []))).2.1,
       (tailInterp (normEvent ((splitOnChar '.' s.data).getD 1 []))
         (pyStrip ((splitOnChar '.' s.data).getD 2 []))).2.2⟩ ∧
    parseBindingName (some s) ≠ BindResult.allNone := by
  have hlt : ¬ (splitOnChar '.' s.data).length < 3 := by omega
  simp only [List.getD, List.get?_eq_getElem?] at h3 ⊢
  constructor
  · simp [parseBindingName, h0, h1, hlt, h3, List.getD]
  · simp [parseBindingName, h0, h1, hlt, h3, List.getD, BindResult.allNone]

/-- Witness for c10_partial_channel at the concrete name Chxx.CC.064. -/
theorem c10_partial_channel_witness :
    parseBindingName (some "Chxx.CC.064") ≠ BindResult.allNone :=
  (c10_partial_channel "Chxx.CC.064" (by decide) (by decide) (by decide)
    (by decide)).2

/-! ## Claim C1 (end-to-end decode of the synthetic buffer) -/

set_option maxRecDepth 100000 in
/-- Claim C1: decoding the synthetic end-to-end buffer returns exactly
one record, and that record has device target 1, binding name
Ch01.CC.010, MIDI channel 1, event CC, number 10, deck scope -1,
controller type 1 (FADER_OR_KNOB) and interaction mode 3 (DIRECT). -/
theorem c1_end_to_end :
    parse c1Buf = some [c1Row] ∧
    c1Row.device_target = 1 ∧
    c1Row.midi_note = some "Ch01.CC.010" ∧
    c1Row.midi_channel = some 1 ∧
    c1Row.midi_event = some "CC" ∧
    c1Row.midi_number = some 10 ∧
    c1Row.deck_scope = some (-1) ∧
    c1Row.controller_type = some 1 ∧
    c1Row.interaction_mode = some 3 := by
  refine ⟨by decide, by decide, by decide, by decide, by decide, by decide,
    by decide, by decide, by decide⟩

/-! ## Helper lemmas for the mapping decode -/

theorem u32_eq {data : List Nat} {off v o : Nat}
    (h : u32 data off = some (v, o)) : v = be32 data off ∧ o = off + 4 := by
  unfold u32 at h
  split at h
  · injection h with h
    injection h with h1 h2
    exact ⟨h1.symm, h2.symm⟩
  · cases h

theorem u32Seq_spec (data : List Nat) :
    ∀ (k off : Nat) (vs : List Nat) (o2 : Nat),
      u32Seq data k off = some (vs, o2) →
      o2 = off + 4 * k ∧ vs.length = k ∧
        ∀ i, i < k → vs.getD i 0 = be32 data (off + 4 * i) := by
  intro k
  induction k with
  | zero =>
    intro off vs o2 h
    simp only [u32Seq, Option.some.injEq, Prod.mk.injEq] at h
    obtain ⟨h1, h2⟩ := h
    subst h1; subst h2
    exact ⟨by omega, rfl, fun i hi => absurd hi (by omega)⟩
  | succ n ih =>
    intro off vs o2 h
    cases h1 : u32 data off with
    | none =>
      simp only [u32Seq, h1] at h
      exact Option.noConfusion h
    | some p =>
      obtain ⟨v, o⟩ := p
      obtain ⟨hv, ho⟩ := u32_eq h1
      cases h2 : u32Seq data n o with
      | none =>
        simp only [u32Seq, h1, h2] at h
        exact Option.noConfusion h
      | some q =>
        obtain ⟨vs2, oo⟩ := q
        simp only [u32Seq, h1, h2, Option.some.injEq, Prod.mk.injEq] at h
        obtain ⟨hvs, ho2⟩ := h
        subst hvs; subst ho2
        obtain ⟨hoo, hlen, hvals⟩ := ih o vs2 oo h2
        subst hv; subst ho
        refine ⟨by omega, by simp [hlen], ?_⟩
        intro i hi
        cases i with
        | zero => simp
        | succ j =>
          have hj := hvals j (by omega)
          simp only [List.getD_cons_succ]
          rw [hj]
          congr 1
          omega

theorem readSettings_tail_cases (data : List Nat) (sstart send mtypeV : Nat)
    (st : CmadOut) (h : readSettings data sstart send mtypeV = some st) :
    (TailAccept data send mtypeV st.headEnd ∧ st.finalOff = send ∧
      st.ledMinM = some (be32 data (st.headEnd + 12)) ∧
      st.ledMaxM = some (be32 data (st.headEnd + 16)) ∧
      st.ledInv = some (be32 data (st.headEnd + 20)) ∧
      st.ledBlend = some (be32 data (st.headEnd + 24)) ∧
      st.resDword = some (be32 data (st.headEnd + 32)) ∧ mtypeV = 1) ∨
    (¬ TailAccept data send mtypeV st.headEnd ∧
      st.ledMinC = none ∧ st.ledMaxC = none ∧ st.ledMinM = none ∧
      st.ledMaxM = none ∧ st.ledInv = none ∧ st.ledBlend = none ∧
      st.resDword = none ∧ st.finalOff = st.headEnd) := by
  cases h1 : cu32Seq data send 12 sstart with
  | none =>
    simp only [readSettings, h1] at h
    exact Option.noConfusion h
  | some p1 =>
    obtain ⟨hs12, o12⟩ := p1
    cases h2 : cwstr data send o12 with
    | none =>
      simp only [readSettings, h1, h2] at h
      exact Option.noConfusion h
    | some p2 =>
      obtain ⟨cm, p2r⟩ := p2
      obtain ⟨cmRaw, o13⟩ := p2r
      cases h3 : cu32Seq data send 7 o13 with
      | none =>
        simp only [readSettings, h1, h2, h3] at h
        exact Option.noConfusion h
      | some p3 =>
        obtain ⟨ms, o20⟩ := p3
        by_cases hc : mtypeV = 1 ∧ 40 ≤ send - o20
        · cases h4 : u32Seq data 10 o20 with
          | none =>
            simp only [readSettings, h1, h2, h3, if_pos hc, h4] at h
            exact Option.noConfusion h
          | some p4 =>
            obtain ⟨ts, p10⟩ := p4
            obtain ⟨hp10, -, hvals⟩ := u32Seq_spec data 10 o20 ts p10 h4
            have h12 : ts.getD 3 0 = be32 data (o20 + 12) := by
              simpa using hvals 3 (by omega)
            have h16 : ts.getD 4 0 = be32 data (o20 + 16) := by
              simpa using hvals 4 (by omega)
            have h20 : ts.getD 5 0 = be32 data (o20 + 20) := by
              simpa using hvals 5 (by omega)
            have h24 : ts.getD 6 0 = be32 data (o20 + 24) := by
              simpa using hvals 6 (by omega)
            have h32 : ts.getD 8 0 = be32 data (o20 + 32) := by
              simpa using hvals 8 (by omega)
            by_cases hacc : p10 = send ∧ ts.getD 3 0 ≤ 127 ∧ ts.getD 4 0 ≤ 127
            · simp only [readSettings, h1, h2, h3, if_pos hc, h4,
                if_pos hacc, Option.some.injEq] at h
              subst h
              obtain ⟨hps, hm1, hm2⟩ := hacc
              left
              refine ⟨⟨hc.1, hc.2, ?_, ?_, ?_⟩, rfl, ?_, ?_, ?_, ?_, ?_, hc.1⟩
              · show o20 + 40 = send
                omega
              · show be32 data (o20 + 12) ≤ 127
                exact h12 ▸ hm1
              · show be32 data (o20 + 16) ≤ 127
                exact h16 ▸ hm2
              · show some (ts.getD 3 0) = some (be32 data (o20 + 12))
                exact congrArg some h12
              · show some (ts.getD 4 0) = some (be32 data (o20 + 16))
                exact congrArg some h16
              · show some (ts.getD 5 0) = some (be32 data (o20 + 20))
                exact congrArg some h20
              · show some (ts.getD 6 0) = some (be32 data (o20 + 24))
                exact congrArg some h24
              · show some (ts.getD 8 0) = some (be32 data (o20 + 32))
                exact congrArg some h32
            · simp only [readSettings, h1, h2, h3, if_pos hc, h4,
                if_neg hacc, Option.some.injEq] at h
              subst h
              right
              refine ⟨?_, rfl, rfl, rfl, rfl, rfl, rfl, rfl, rfl⟩
              rintro ⟨-, -, hlen, hb1, hb2⟩
              have hlen2 : o20 + 40 = send := hlen
              have hb1a : be32 data (o20 + 12) ≤ 127 := hb1
              have hb2a : be32 data (o20 + 16) ≤ 127 := hb2
              refine hacc ⟨by omega, ?_, ?_⟩
              · rw [h12]; exact hb1a
              · rw [h16]; exact hb2a
        · simp only [readSettings, h1, h2, h3, if_neg hc,
            Option.some.injEq] at h
          subst h
          right
          refine ⟨?_, rfl, rfl, rfl, rfl, rfl, rfl, rfl, rfl⟩
          rintro ⟨hm, hlen, -, -, -⟩
          have hlen2 : 40 ≤ send - o20 := hlen
          exact hc ⟨hm, hlen2⟩

theorem assembleRow_led (dn : String) (dnRaw : List Nat) (dt : Nat)
    (mtypeV cid bid : Nat) (binds : List (Nat × String))
    (bindsRaw : List (Nat × List Nat))
    (defs : List (String × (Nat × Nat × Nat))) (st : CmadOut) :
    (assembleRow dn dnRaw dt mtypeV cid bid binds bindsRaw defs st).led_min_controller = st.ledMinC ∧
    (assembleRow dn dnRaw dt mtypeV cid bid binds bindsRaw defs st).led_max_controller = st.ledMaxC ∧
    (assembleRow dn dnRaw dt mtypeV cid bid binds bindsRaw defs st).led_min_midi = st.ledMinM ∧
    (assembleRow dn dnRaw dt mtypeV cid bid binds bindsRaw defs st).led_max_midi = st.ledMaxM ∧
    (assembleRow dn dnRaw dt mtypeV cid bid binds bindsRaw defs st).led_invert = st.ledInv ∧
    (assembleRow dn dnRaw dt mtypeV cid bid binds bindsRaw defs st).led_blend = st.ledBlend ∧
    (assembleRow dn dnRaw dt mtypeV cid bid binds bindsRaw defs st).resolution_raw = st.resDword.bind castResolution ∧
    (assembleRow dn dnRaw dt mtypeV cid bid binds bindsRaw defs st).resolution_dword = st.resDword ∧
    (assembleRow dn dnRaw dt mtypeV cid bid binds bindsRaw defs st).mapping_type_raw = some mtypeV :=
  ⟨rfl, rfl, rfl, rfl, rfl, rfl, rfl, rfl, rfl⟩

theorem buildRowMinimal_led (dn : String) (dnRaw : List Nat) (dt : Nat)
    (mtypeV cid bid : Nat) (binds : List (Nat × String))
    (bindsRaw : List (Nat × List Nat))
    (defs : List (String × (Nat × Nat × Nat))) :
    LedAbsent (buildRowMinimal dn dnRaw dt mtypeV cid bid binds bindsRaw defs) :=
  ⟨rfl, rfl, rfl, rfl, rfl, rfl, rfl, rfl⟩

/-! ## Claim C4 (LED and resolution tail invariant) -/

/-- Claim C4: for every decoded mapping record, the LED and resolution
fields are non-absent only when the raw mapping type is OUT and the
40-byte tail heuristic accepts (at least 40 bytes remain after the fixed
head, consuming exactly 40 lands at the settings-frame end, both MIDI
range values lie in 0..127); in every other case all these fields are
absent together and the settings cursor stays at the fixed-head end
rather than advancing over the attempted region. -/
theorem c4_led_tail_invariant (data : List Nat) (s e : Nat) (dn : String)
    (dnRaw : List Nat) (dt : Nat) (binds : List (Nat × String))
    (bindsRaw : List (Nat × List Nat))
    (defs : List (String × (Nat × Nat × Nat))) (row : MappingRow)
    (hrow : readMapping data s e dn dnRaw dt binds bindsRaw defs = some row) :
    (¬ LedAbsent row →
      row.mapping_type_raw = some 1 ∧
      ∃ sstart send st,
        read_frame_header data e (s + 12) = some (tagCMAD, sstart, send) ∧
        readSettings data sstart send 1 = some st ∧
        TailAccept data send 1 st.headEnd ∧ st.finalOff = send) ∧
    (∀ sstart send st,
      read_frame_header data e (s + 12) = some (tagCMAD, sstart, send) →
      readSettings data sstart send (be32 data (s + 4)) = some st →
      ¬ TailAccept data send (be32 data (s + 4)) st.headEnd →
      LedAbsent row ∧ st.finalOff = st.headEnd) := by
  cases h3 : u32Seq data 3 s with
  | none =>
    simp only [readMapping, h3] at hrow
    exact Option.noConfusion hrow
  | some p =>
    obtain ⟨hv, o3⟩ := p
    obtain ⟨ho3, -, hvals⟩ := u32Seq_spec data 3 s hv o3 h3
    have hmt : hv.getD 1 0 = be32 data (s + 4) := by
      simpa using hvals 1 (by omega)
    have ho3e : o3 = s + 12 := by omega
    subst ho3e
    cases hh : read_frame_header data e (s + 12) with
    | none =>
      simp only [readMapping, h3, hh] at hrow
      exact Option.noConfusion hrow
    | some q =>
      obtain ⟨fid, q2⟩ := q
      obtain ⟨sstart, send⟩ := q2
      by_cases hf : fid = tagCMAD
      · cases hs : readSettings data sstart send (hv.getD 1 0) with
        | none =>
          simp only [readMapping, h3, hh, if_pos hf, hs] at hrow
          exact Option.noConfusion hrow
        | some st =>
          simp only [readMapping, h3, hh, if_pos hf, hs,
            Option.some.injEq] at hrow
          subst hrow
          obtain ⟨l1, l2, l3, l4, l5, l6, l7, l8, l9⟩ :=
            assembleRow_led dn dnRaw dt (hv.getD 1 0) (hv.getD 2 0)
              (hv.getD 0 0) binds bindsRaw defs st
          rcases readSettings_tail_cases data sstart send (hv.getD 1 0) st hs with
            hAcc | hRej
          · obtain ⟨hta, hfin, -, -, -, -, -, hmt1⟩ := hAcc
            constructor
            · intro _
              refine ⟨by rw [l9, hmt1], sstart, send, st, by rw [hf],
                by rwa [hmt1] at hs, by rwa [hmt1] at hta, hfin⟩
            · intro sstart2 send2 st2 hh2 hs2 hrej2
              injection hh2 with hh2
              simp only [Prod.mk.injEq] at hh2
              obtain ⟨-, hse, hsd⟩ := hh2
              subst hse; subst hsd
              rw [← hmt] at hs2
              rw [hs] at hs2
              injection hs2 with hs2
              subst hs2
              rw [← hmt] at hrej2
              exact absurd hta hrej2
          · obtain ⟨hrej, n1, n2, n3, n4, n5, n6, n7, hfin⟩ := hRej
            have habs : LedAbsent (assembleRow dn dnRaw dt (hv.getD 1 0)
                (hv.getD 2 0) (hv.getD 0 0) binds bindsRaw defs st) :=
              ⟨l1.trans n1, l2.trans n2, l3.trans n3, l4.trans n4,
                l5.trans n5, l6.trans n6, by rw [l7, n7]; rfl, l8.trans n7⟩
            constructor
            · intro hna
              exact absurd habs hna
            · intro sstart2 send2 st2 hh2 hs2 hrej2
              injection hh2 with hh2
              simp only [Prod.mk.injEq] at hh2
              obtain ⟨-, hse, hsd⟩ := hh2
              subst hse; subst hsd
              rw [← hmt] at hs2
              rw [hs] at hs2
              injection hs2 with hs2
              subst hs2
              exact ⟨habs, hfin⟩
      · simp only [readMapping, h3, hh, if_neg hf, Option.some.injEq] at hrow
        subst hrow
        have hmin := buildRowMinimal_led dn dnRaw dt (hv.getD 1 0)
          (hv.getD 2 0) (hv.getD 0 0) binds bindsRaw defs
        constructor
        · intro hna
          exact absurd hmin hna
        · intro sstart2 send2 st2 hh2 hs2 hrej2
          injection hh2 with hh2
          simp only [Prod.mk.injEq] at hh2
          exact absurd hh2.1 hf

/-- Witness for c4_led_tail_invariant: the concrete IN mapping entry
c4WitBuf decodes to c4WitRow; its settings decode rejects the tail, so
the theorem yields all LED fields absent and an unmoved cursor. -/
theorem c4_led_tail_invariant_witness :
    LedAbsent c4WitRow ∧ c4WitSt.finalOff = c4WitSt.headEnd :=
  (c4_led_tail_invariant c4WitBuf 0 100 "" [] 0 [] [] [] c4WitRow
    (by decide)).2 20 100 c4WitSt (by decide) (by decide)
    (by intro h; exact absurd h.1 (by decide))

/-! ## Claim C6 (malformed mapping aborts the whole decode) -/

set_option maxRecDepth 100000 in
/-- Counterexample to claim C6: c6Buf holds a device frame whose first
child header declares an impossible length, followed by a fully
well-formed device with one well-formed mapping; the top-level decode
raises (none) and returns none of the records, while the well-formed
remainder alone decodes to a nonempty record list. -/
theorem c6_counterexample :
    c6Buf = c6BadDevice ++ c1Buf ∧
    parse c6Buf = none ∧
    (parse c1Buf).isSome = true := by
  refine ⟨rfl, by decide, by decide⟩

theorem parse_step_none (data : List Nat) :
    ∀ (l : List FrameNode) (acc : List MappingRow),
      (∃ n ∈ l, n.id4 = tagDEVI ∧
        parseDevice data (n.start + 8) n.endPos = none) →
      l.foldlM
        (fun acc node =>
          if node.id4 = tagDEVI then
            (parseDevice data (node.start + 8) node.endPos).map (acc ++ ·)
          else some acc) acc = none := by
  intro l
  induction l with
  | nil => rintro acc ⟨n, hn, -⟩; cases hn
  | cons x xs ih =>
    rintro acc ⟨n, hn, hid, hdev⟩
    rw [List.foldlM_cons]
    rcases List.mem_cons.mp hn with rfl | hmem
    · rw [if_pos hid, hdev]
      rfl
    · by_cases hx : x.id4 = tagDEVI
      · rw [if_pos hx]
        cases hpd : parseDevice data (x.start + 8) x.endPos with
        | none => rfl
        | some lst => exact ih _ ⟨n, hmem, hid, hdev⟩
      · rw [if_neg hx]
        exact ih _ ⟨n, hmem, hid, hdev⟩

/-- Claim C6, amended: a malformed individual mapping or device child
does abort the whole decode: inside a device frame every child header is
read without any exception handling, so a child whose declared length
exceeds the enclosing frame raises, the device decode returns none, and
the top-level parse propagates the failure, returning none of the
records of any device; only the frame walker itself resynchronises over
bad headers. -/
theorem c6_malformed_child_aborts (data : List Nat) (s e nlen o : Nat)
    (h1 : u32 data s = some (nlen, o))
    (hq : o + nlen * 2 < e)
    (hH : read_frame_header data e (o + nlen * 2) = none) :
    parseDevice data s e = none ∧
    ∀ buf : List Nat, ∀ node ∈ walk buf 0 buf.length,
      node.id4 = tagDEVI →
      parseDevice buf (node.start + 8) node.endPos = none →
      parse buf = none := by
  constructor
  · simp only [parseDevice, h1, bytesN]
    have he : e - (o + nlen * 2) = (e - (o + nlen * 2) - 1) + 1 := by omega
    rw [he]
    simp only [devGo, if_pos hq, hH]
  · intro buf node hmem hid hdev
    exact parse_step_none buf (walk buf 0 buf.length) [] ⟨node, hmem, hid, hdev⟩

/-! ## Claim C3 (walker pre-order enumeration) -/

theorem ccAux_noSpurious {data : List Nat} {a b : Nat}
    (hns : noSpurious data a b) :
    ∀ fuel, ccAux fuel data a b = 0 := by
  intro fuel
  cases fuel with
  | zero => rfl
  | succ f =>
    simp only [ccAux]
    by_cases h8 : a + 8 ≤ b
    · rw [if_pos h8]
      by_cases hid : looksLikeId data a
      · rw [if_pos hid]
        cases hH : read_frame_header data b a with
        | none => rfl
        | some q =>
          exfalso
          unfold read_frame_header at hH
          split at hH
          · split at hH
            · exact hns a le_rfl h8 ⟨hid, by assumption⟩
            · exact Option.noConfusion hH
          · exact Option.noConfusion hH
      · rw [if_neg hid]
    · rw [if_neg h8]

theorem ccAux_of_wf {data : List Nat} {s e k : Nat} {out : List FrameNode}
    (hwf : WfForest data s e k out) :
    e ≤ data.length → ∀ fuel, e - s ≤ fuel → ccAux fuel data s e = k := by
  induction hwf with
  | nil e1 =>
    intro _ fuel _
    cases fuel with
    | zero => rfl
    | succ f => simp [ccAux]
  | consNode s1 e1 pend k1 kc inner rest hid hpend hle hpl hrest ih1 ih2 =>
    intro hlen fuel hf
    have h8 : s1 + 8 ≤ e1 := by omega
    cases fuel with
    | zero => omega
    | succ f =>
      have hl8 : s1 + 8 ≤ data.length := by omega
      have hb : s1 + 8 + be32 data (s1 + 4) ≤ e1 := by omega
      simp only [ccAux, if_pos h8, hid, if_true, read_frame_header,
        if_pos hl8, if_pos hb]
      rw [show s1 + 8 + be32 data (s1 + 4) = pend from hpend.symm]
      rw [ih2 hlen f (by omega)]
      omega
  | consLeaf s1 e1 pend k1 rest hid hpend hle hpl hrest ih =>
    intro hlen fuel hf
    have h8 : s1 + 8 ≤ e1 := by omega
    cases fuel with
    | zero => omega
    | succ f =>
      have hl8 : s1 + 8 ≤ data.length := by omega
      have hb : s1 + 8 + be32 data (s1 + 4) ≤ e1 := by omega
      simp only [ccAux, if_pos h8, hid, if_true, read_frame_header,
        if_pos hl8, if_pos hb]
      rw [show s1 + 8 + be32 data (s1 + 4) = pend from hpend.symm]
      rw [ih hlen f (by omega)]
      omega

theorem walkAux_noSpurious {data : List Nat} {a e : Nat}
    (hns : noSpurious data a e) :
    ∀ fuel pos, a ≤ pos → walkAux fuel data pos e = [] := by
  intro fuel
  induction fuel with
  | zero => intro pos _; rfl
  | succ f ih =>
    intro pos hpos
    simp only [walkAux]
    by_cases h8 : pos + 8 ≤ e
    · rw [if_pos h8]
      by_cases hid : looksLikeId data pos
      · rw [if_pos hid]
        by_cases hlen : pos + 8 ≤ data.length
        · rw [if_pos hlen]
          by_cases hb : pos + 8 + be32 data (pos + 4) ≤ e
          · exact absurd ⟨hid, hb⟩ (hns pos hpos h8)
          · rw [if_neg hb]
            exact ih (pos + 9) (by omega)
        · rw [if_neg hlen]
          exact ih (pos + 5) (by omega)
      · rw [if_neg hid]
        exact ih (pos + 1) (by omega)
    · rw [if_neg h8]

theorem walkAux_of_wf {data : List Nat} {s e k : Nat} {out : List FrameNode}
    (hwf : WfForest data s e k out) :
    e ≤ data.length → ∀ fuel, e - s ≤ fuel → walkAux fuel data s e = out := by
  induction hwf with
  | nil e1 =>
    intro _ fuel _
    cases fuel with
    | zero => rfl
    | succ f => simp [walkAux]
  | consNode s1 e1 pend k1 kc inner rest hid hpend hle hpl hrest ih1 ih2 =>
    intro hlen fuel hf
    have h8 : s1 + 8 ≤ e1 := by omega
    cases fuel with
    | zero => omega
    | succ f =>
      have hl8 : s1 + 8 ≤ data.length := by omega
      have hb : s1 + 8 + be32 data (s1 + 4) ≤ e1 := by omega
      simp only [walkAux, if_pos h8, hid, if_true, if_pos hl8, if_pos hb]
      rw [show s1 + 8 + be32 data (s1 + 4) = pend from hpend.symm]
      rw [ih1 (by omega) f (by omega), ih2 hlen f (by omega)]
      have hcc : countChildren data (s1 + 8) pend = kc :=
        ccAux_of_wf hpl (by omega) (pend - (s1 + 8)) le_rfl
      rw [hcc]
  | consLeaf s1 e1 pend k1 rest hid hpend hle hpl hrest ih =>
    intro hlen fuel hf
    have h8 : s1 + 8 ≤ e1 := by omega
    cases fuel with
    | zero => omega
    | succ f =>
      have hl8 : s1 + 8 ≤ data.length := by omega
      have hb : s1 + 8 + be32 data (s1 + 4) ≤ e1 := by omega
      simp only [walkAux, if_pos h8, hid, if_true, if_pos hl8, if_pos hb]
      rw [show s1 + 8 + be32 data (s1 + 4) = pend from hpend.symm]
      rw [walkAux_noSpurious hpl f (s1 + 8) le_rfl, ih hlen f (by omega)]
      have hcc : countChildren data (s1 + 8) pend = 0 :=
        ccAux_noSpurious hpl (pend - (s1 + 8))
      rw [hcc]
      rfl

/-- Claim C3: over any well-formed nested-frame region (frames whose
payloads are recursively frame concatenations or leaf bytes), walk
yields exactly the depth-first pre-order node list, siblings in byte
order, every frame exactly once, and every yielded children_count equals
the true number of immediate child frames of that node. -/
theorem c3_walk_preorder (data : List Nat) (s e k : Nat)
    (out : List FrameNode) (hwf : WfForest data s e k out)
    (hlen : e ≤ data.length) :
    walk data s e = out :=
  walkAux_of_wf hwf hlen (e - s) le_rfl

set_option maxRecDepth 100000 in
/-- Witness for c3_walk_preorder: the two-frame buffer c3WitBuf walks
to its pre-order listing, the outer node counting one child. -/
theorem c3_walk_preorder_witness :
    walk c3WitBuf 0 16 =
      [⟨[65, 65, 65, 65], 0, 16, 1⟩, ⟨[66, 66, 66, 66], 8, 16, 0⟩] := by
  have hleaf : WfForest c3WitBuf 8 16 1 [⟨[66, 66, 66, 66], 8, 16, 0⟩] :=
    WfForest.consLeaf 8 16 16 0 [] (by decide) (by decide) (by decide)
      (fun p hp hp8 => absurd hp8 (by omega)) (WfForest.nil 16)
  have houter : WfForest c3WitBuf 0 16 1
      [⟨[65, 65, 65, 65], 0, 16, 1⟩, ⟨[66, 66, 66, 66], 8, 16, 0⟩] :=
    WfForest.consNode 0 16 16 0 1 [⟨[66, 66, 66, 66], 8, 16, 0⟩] []
      (by decide) (by decide) (by decide) hleaf (WfForest.nil 16)
  exact c3_walk_preorder c3WitBuf 0 16 1 _ houter (by decide)

/-! ## Claim C2: slice localization machinery

Every read the settings and list decoders perform inside a well-formed
region depends only on the bytes of that region, so the decode of a
payload embedded at offset q equals the decode of the standalone payload
with all cursor positions shifted by q.  The lemmas below establish this
for each primitive and compose them through readSettings. -/

theorem getD_drop (l : List Nat) :
    ∀ q i, (l.drop q).getD i 0 = l.getD (q + i) 0 := by
  induction l with
  | nil => intro q i; simp
  | cons a t ih =>
    intro q i
    cases q with
    | zero => simp
    | succ n =>
      show (t.drop n).getD i 0 = (a :: t).getD (n + 1 + i) 0
      rw [show n + 1 + i = (n + i) + 1 from by omega, List.getD_cons_succ]
      exact ih n i

theorem getD_take (l : List Nat) :
    ∀ n i, i < n → (l.take n).getD i 0 = l.getD i 0 := by
  induction l with
  | nil => intro n i _; simp
  | cons a t ih =>
    intro n i hi
    cases n with
    | zero => omega
    | succ m =>
      cases i with
      | zero => simp
      | succ j =>
        show (a :: t.take m).getD (j + 1) 0 = (a :: t).getD (j + 1) 0
        rw [List.getD_cons_succ, List.getD_cons_succ]
        exact ih m j (by omega)

theorem byteAt_slice (data P : List Nat) (q : Nat)
    (hs : (data.drop q).take P.length = P) (i : Nat) (hi : i < P.length) :
    byteAt data (q + i) = P.getD i 0 := by
  conv_rhs => rw [← hs]
  rw [getD_take _ _ _ hi, getD_drop]
  rfl

theorem be32_slice (data P : List Nat) (q : Nat)
    (hs : (data.drop q).take P.length = P) (k : Nat)
    (hk : k + 4 ≤ P.length) :
    be32 data (q + k) = be32 P k := by
  unfold be32
  rw [show q + k + 1 = q + (k + 1) from by omega,
    show q + k + 2 = q + (k + 2) from by omega,
    show q + k + 3 = q + (k + 3) from by omega,
    byteAt_slice data P q hs k (by omega),
    byteAt_slice data P q hs (k + 1) (by omega),
    byteAt_slice data P q hs (k + 2) (by omega),
    byteAt_slice data P q hs (k + 3) (by omega)]
  rfl

theorem slice_sub (data P : List Nat) (q : Nat)
    (hs : (data.drop q).take P.length = P) (a m : Nat)
    (ha : a + m ≤ P.length) :
    (data.drop (q + a)).take m = (P.drop a).take m := by
  conv_rhs => rw [← hs]
  rw [List.drop_take, List.take_take, min_eq_left (by omega),
    List.drop_drop]

theorem u32_slice (data P : List Nat) (q : Nat)
    (hs : (data.drop q).take P.length = P) (hq : q + P.length ≤ data.length)
    (k : Nat) (hk : k + 4 ≤ P.length) :
    u32 data (q + k) = some (be32 P k, q + (k + 4)) := by
  unfold u32
  rw [if_pos (by omega), be32_slice data P q hs k hk]
  rfl

theorem u32_slice_self (P : List Nat) (k : Nat) (hk : k + 4 ≤ P.length) :
    u32 P k = some (be32 P k, k + 4) := by
  unfold u32
  rw [if_pos hk]

theorem cu32_slice (data P : List Nat) (q : Nat)
    (hs : (data.drop q).take P.length = P) (hq : q + P.length ≤ data.length)
    (k : Nat) :
    cu32 data (q + P.length) (q + k) =
      (cu32 P P.length k).map (fun r => (r.1, q + r.2)) := by
  unfold cu32
  by_cases hk : k + 4 ≤ P.length
  · rw [if_pos (by omega : q + k + 4 ≤ q + P.length), if_pos hk,
      u32_slice data P q hs hq k hk, u32_slice_self P k hk]
    rfl
  · rw [if_neg (by omega : ¬ q + k + 4 ≤ q + P.length), if_neg hk]
    rfl

theorem cu32Seq_slice (data P : List Nat) (q : Nat)
    (hs : (data.drop q).take P.length = P) (hq : q + P.length ≤ data.length) :
    ∀ j k, cu32Seq data (q + P.length) j (q + k) =
      (cu32Seq P P.length j k).map (fun r => (r.1, q + r.2)) := by
  intro j
  induction j with
  | zero => intro k; rfl
  | succ n ih =>
    intro k
    show cu32Seq data (q + P.length) (n + 1) (q + k) = _
    unfold cu32Seq
    rw [cu32_slice data P q hs hq k]
    cases hc : cu32 P P.length k with
    | none => rfl
    | some r =>
      obtain ⟨v, o⟩ := r
      simp only [Option.map_some']
      rw [ih o]
      cases cu32Seq P P.length n o with
      | none => rfl
      | some r2 => rfl

theorem u32Seq_slice (data P : List Nat) (q : Nat)
    (hs : (data.drop q).take P.length = P) (hq : q + P.length ≤ data.length) :
    ∀ j k, k + 4 * j ≤ P.length →
      u32Seq data j (q + k) =
        (u32Seq P j k).map (fun r => (r.1, q + r.2)) := by
  intro j
  induction j with
  | zero => intro k _; rfl
  | succ n ih =>
    intro k hk
    show u32Seq data (n + 1) (q + k) = _
    unfold u32Seq
    simp only [u32_slice data P q hs hq k (by omega),
      u32_slice_self P k (by omega)]
    rw [ih (k + 4) (by omega)]
    cases u32Seq P n (k + 4) with
    | none => rfl
    | some r2 => rfl

theorem cwstr_slice (data P : List Nat) (q : Nat)
    (hs : (data.drop q).take P.length = P) (hq : q + P.length ≤ data.length)
    (k : Nat) :
    cwstr data (q + P.length) (q + k) =
      (cwstr P P.length k).map (fun r => (r.1, r.2.1, q + r.2.2)) := by
  unfold cwstr
  by_cases hk : k + 4 ≤ P.length
  · rw [if_pos (by omega : q + k + 4 ≤ q + P.length), if_pos hk,
      u32_slice data P q hs hq k hk, u32_slice_self P k hk]
    simp only [bytesN, Option.map_some']
    by_cases hb : P.length < k + 4 + be32 P k * 2
    · rw [if_pos hb,
        if_pos (show q + P.length < q + (k + 4) + be32 P k * 2 from by omega),
        show q + P.length - (q + (k + 4)) = P.length - (k + 4) from by omega,
        slice_sub data P q hs (k + 4) (P.length - (k + 4)) (by omega),
        show q + (k + 4) + (P.length - (k + 4)) =
          q + ((k + 4) + (P.length - (k + 4))) from by omega]
    · rw [if_neg hb,
        if_neg (show ¬ q + P.length < q + (k + 4) + be32 P k * 2 from by omega),
        slice_sub data P q hs (k + 4) (be32 P k * 2) (by omega),
        show q + (k + 4) + be32 P k * 2 =
          q + ((k + 4) + be32 P k * 2) from by omega]
  · rw [if_neg (by omega : ¬ q + k + 4 ≤ q + P.length), if_neg hk]
    rfl

theorem readSettings_localize (data P : List Nat) (q mt : Nat)
    (hs : (data.drop q).take P.length = P)
    (hq : q + P.length ≤ data.length) :
    readSettings data q (q + P.length) mt =
      (readSettings P 0 P.length mt).map
        (fun st => { st with headEnd := q + st.headEnd,
                             finalOff := q + st.finalOff }) := by
  unfold readSettings
  have h0 : cu32Seq data (q + P.length) 12 q =
      (cu32Seq P P.length 12 0).map (fun r => (r.1, q + r.2)) := by
    simpa using cu32Seq_slice data P q hs hq 12 0
  rw [h0]
  cases hA : cu32Seq P P.length 12 0 with
  | none => rfl
  | some pA =>
    obtain ⟨hs12, o12⟩ := pA
    simp only [Option.map_some']
    rw [cwstr_slice data P q hs hq o12]
    cases hB : cwstr P P.length o12 with
    | none => rfl
    | some pB =>
      obtain ⟨cm, cmRaw, o13⟩ := pB
      simp only [Option.map_some']
      rw [cu32Seq_slice data P q hs hq 7 o13]
      cases hC : cu32Seq P P.length 7 o13 with
      | none => rfl
      | some pC =>
        obtain ⟨ms, o20⟩ := pC
        simp only [Option.map_some']
        rw [show q + P.length - (q + o20) = P.length - o20 from by omega]
        by_cases hc : mt = 1 ∧ 40 ≤ P.length - o20
        · rw [if_pos hc, if_pos hc]
          rw [u32Seq_slice data P q hs hq 10 o20 (by omega)]
          cases hD : u32Seq P 10 o20 with
          | none => rfl
          | some pD =>
            obtain ⟨ts, p10⟩ := pD
            simp only [Option.map_some']
            by_cases hE : p10 = P.length ∧ ts.getD 3 0 ≤ 127 ∧
                ts.getD 4 0 ≤ 127
            · rw [if_pos hE,
                if_pos (show q + p10 = q + P.length ∧ ts.getD 3 0 ≤ 127 ∧
                  ts.getD 4 0 ≤ 127 from ⟨by omega, hE.2⟩)]
              rfl
            · rw [if_neg hE,
                if_neg (show ¬ (q + p10 = q + P.length ∧ ts.getD 3 0 ≤ 127 ∧
                  ts.getD 4 0 ≤ 127) from fun hcon => hE ⟨by omega, hcon.2⟩)]
              rfl
        · rw [if_neg hc, if_neg hc]
          rfl

theorem assembleRow_shift (dn : String) (dnRaw : List Nat) (dt : Nat)
    (mtypeV cid bid : Nat) (binds : List (Nat × String))
    (bindsRaw : List (Nat × List Nat))
    (defs : List (String × (Nat × Nat × Nat))) (st : CmadOut) (x y : Nat) :
    assembleRow dn dnRaw dt mtypeV cid bid binds bindsRaw defs
      { st with headEnd := x, finalOff := y } =
    assembleRow dn dnRaw dt mtypeV cid bid binds bindsRaw defs st := rfl

theorem wfBind_le (data : List Nat) (entries : List (Nat × List Nat)) :
    ∀ q qe, WfBindEntries data q qe entries → q ≤ qe := by
  induction entries with
  | nil => intro q qe h; exact le_of_eq h
  | cons p rest ih =>
    intro q qe h
    obtain ⟨bid, nm⟩ := p
    have h6 := h.2.2.2.2.2
    have := ih _ _ h6
    omega

theorem wfMents_le (data : List Nat) (ments : List Ment) :
    ∀ q qe, WfMents data q qe ments → q ≤ qe := by
  induction ments with
  | nil => intro q qe h; exact le_of_eq h
  | cons m rest ih =>
    intro q qe h
    have h9 := h.2.2.2.2.2.2.2.2
    have := ih _ _ h9
    omega

theorem u32_at (data : List Nat) (o : Nat) (h : o + 4 ≤ data.length) :
    u32 data o = some (be32 data o, o + 4) := by
  unfold u32
  rw [if_pos h]

theorem u32Seq_two (data : List Nat) (o : Nat) (h : o + 8 ≤ data.length) :
    u32Seq data 2 o = some ([be32 data o, be32 data (o + 4)], o + 8) := by
  have h1 : u32 data o = some (be32 data o, o + 4) := u32_at data o (by omega)
  have h2 : u32 data (o + 4) = some (be32 data (o + 4), o + 4 + 4) :=
    u32_at data (o + 4) (by omega)
  simp only [u32Seq, h1, h2]

theorem u32Seq_three (data : List Nat) (o : Nat) (h : o + 12 ≤ data.length) :
    u32Seq data 3 o =
      some ([be32 data o, be32 data (o + 4), be32 data (o + 8)], o + 12) := by
  have h1 : u32 data o = some (be32 data o, o + 4) := u32_at data o (by omega)
  have h2 : u32 data (o + 4) = some (be32 data (o + 4), o + 4 + 4) :=
    u32_at data (o + 4) (by omega)
  have h3 : u32 data (o + 4 + 4) = some (be32 data (o + 4 + 4), o + 4 + 4 + 4) :=
    u32_at data (o + 4 + 4) (by omega)
  simp only [u32Seq, h1, h2, h3]

theorem frame_header_at (data : List Nat) (e off L : Nat)
    (hlen : be32 data (off + 4) = L)
    (hbuf : off + 8 ≤ data.length) (he : off + 8 + L ≤ e) :
    read_frame_header data e off =
      some (fidAt data off, off + 8, off + 8 + L) := by
  unfold read_frame_header
  rw [hlen, if_pos hbuf, if_pos he]

theorem bindsOf_cons (bid : Nat) (nm : List Nat)
    (rest : List (Nat × List Nat)) :
    bindsOf ((bid, nm) :: rest) = (bid, decodeUtf16Ignore nm) :: bindsOf rest :=
  rfl

theorem bindsRawOf_cons (bid : Nat) (nm : List Nat)
    (rest : List (Nat × List Nat)) :
    bindsRawOf ((bid, nm) :: rest) = (bid, nm) :: bindsRawOf rest := rfl

theorem bindGo_of_wf (data : List Nat) (qe : Nat) (hqe : qe ≤ data.length)
    (entries : List (Nat × List Nat)) :
    ∀ (q : Nat) (st : List (Nat × String) × List (Nat × List Nat)),
      WfBindEntries data q qe entries →
      bindGo data qe entries.length q st =
        some (st.1 ++ bindsOf entries, st.2 ++ bindsRawOf entries) := by
  induction entries with
  | nil =>
    intro q st h
    simp [bindGo, bindsOf, bindsRawOf]
  | cons p rest ih =>
    intro q st h
    obtain ⟨bid, nm⟩ := p
    obtain ⟨h1, h2, h3, h4, h5, h6⟩ := h
    have hle := wfBind_le data rest _ _ h6
    have hh : read_frame_header data qe q =
        some (tagDCBM, q + 8, q + 16 + nm.length) := by
      rw [frame_header_at data qe q (8 + nm.length) h2 (by omega) (by omega),
        h1, show q + 8 + (8 + nm.length) = q + 16 + nm.length from by omega]
    have hu : u32Seq data 2 (q + 8) =
        some ([be32 data (q + 8), be32 data (q + 8 + 4)], q + 8 + 8) :=
      u32Seq_two data (q + 8) (by omega)
    have hraw : (List.drop (q + 8 + 8) data).take (be32 data (q + 8 + 4) * 2) =
        nm := by
      rw [show q + 8 + 8 = q + 16 from by omega,
        show q + 8 + 4 = q + 12 from by omega,
        show be32 data (q + 12) * 2 = nm.length from by omega]
      exact h5
    simp only [List.length_cons, bindGo, hh, hu, bytesN,
      List.getD_cons_zero, List.getD_cons_succ, if_pos rfl]
    rw [hraw, h3, ih _ _ h6]
    simp only [bindsOf_cons, bindsRawOf_cons, List.append_assoc,
      List.singleton_append, if_true]

theorem readMapping_of_wfMent (data : List Nat) (q : Nat) (m : Ment)
    (dn : String) (dnRaw : List Nat) (dt : Nat)
    (binds : List (Nat × String)) (bindsRaw : List (Nat × List Nat))
    (defs : List (String × (Nat × Nat × Nat)))
    (hbuf : q + 28 + m.pl.length ≤ data.length)
    (h3 : be32 data (q + 8) = m.bid) (h4 : be32 data (q + 12) = m.mt)
    (h5 : be32 data (q + 16) = m.cid)
    (h6 : fidAt data (q + 20) = tagCMAD)
    (h7 : be32 data (q + 24) = m.pl.length)
    (h8 : (data.drop (q + 28)).take m.pl.length = m.pl) :
    readMapping data (q + 8) (q + 28 + m.pl.length) dn dnRaw dt
        binds bindsRaw defs =
      mentRow dn dnRaw dt binds bindsRaw defs m := by
  have hu : u32Seq data 3 (q + 8) =
      some ([be32 data (q + 8), be32 data (q + 12), be32 data (q + 16)],
        q + 20) := by
    rw [u32Seq_three data (q + 8) (by omega)]
  have hh : read_frame_header data (q + 28 + m.pl.length) (q + 20) =
      some (tagCMAD, q + 28, q + 28 + m.pl.length) := by
    rw [frame_header_at data (q + 28 + m.pl.length) (q + 20) m.pl.length h7
      (by omega) (by omega), h6,
      show q + 20 + 8 = q + 28 from by omega]
  have hloc := readSettings_localize data m.pl (q + 28) m.mt h8 hbuf
  simp only [readMapping, hu, hh, List.getD_cons_zero, List.getD_cons_succ,
    if_pos rfl, h3, h4, h5]
  rw [hloc]
  cases hst : readSettings m.pl 0 m.pl.length m.mt with
  | none => simp only [Option.map_none', mentRow, hst, if_true]
  | some st =>
    simp only [Option.map_some', mentRow, hst, if_true]
    rw [assembleRow_shift]

theorem rmlGo_of_wf (data : List Nat) (qe : Nat) (hqe : qe ≤ data.length)
    (dn : String) (dnRaw : List Nat) (dt : Nat)
    (binds : List (Nat × String)) (bindsRaw : List (Nat × List Nat))
    (defs : List (String × (Nat × Nat × Nat))) (ments : List Ment) :
    ∀ q, WfMents data q qe ments →
      rmlGo data qe dn dnRaw dt binds bindsRaw defs ments.length q =
        mentRows dn dnRaw dt binds bindsRaw defs ments := by
  induction ments with
  | nil => intro q h; rfl
  | cons m rest ih =>
    intro q h
    obtain ⟨h1, h2, h3, h4, h5, h6, h7, h8, h9⟩ := h
    have hle := wfMents_le data rest _ _ h9
    have hbuf : q + 28 + m.pl.length ≤ data.length := by omega
    have hh : read_frame_header data qe q =
        some (tagCMAI, q + 8, q + 28 + m.pl.length) := by
      rw [frame_header_at data qe q (20 + m.pl.length) h2 (by omega)
        (by omega), h1,
        show q + 8 + (20 + m.pl.length) = q + 28 + m.pl.length from by omega]
    have hm := readMapping_of_wfMent data q m dn dnRaw dt binds bindsRaw defs
      hbuf h3 h4 h5 h6 h7 h8
    simp only [List.length_cons, rmlGo, hh, if_pos rfl]
    rw [hm]
    cases hr : mentRow dn dnRaw dt binds bindsRaw defs m with
    | none => simp only [mentRows, hr, if_true]
    | some row =>
      simp only [mentRows, hr, if_true]
      rw [ih _ h9]

theorem readMappingsList_of_wf (data : List Nat) (p pe : Nat)
    (ments : List Ment) (dn : String) (dnRaw : List Nat) (dt : Nat)
    (binds : List (Nat × String)) (bindsRaw : List (Nat × List Nat))
    (defs : List (String × (Nat × Nat × Nat)))
    (hpe : pe ≤ data.length) (hp : p + 4 ≤ pe)
    (hcnt : be32 data p = ments.length)
    (hwf : WfMents data (p + 4) pe ments) :
    readMappingsList data p pe dn dnRaw dt binds bindsRaw defs =
      mentRows dn dnRaw dt binds bindsRaw defs ments := by
  simp only [readMappingsList, u32_at data p (by omega), hcnt]
  exact rmlGo_of_wf data pe hpe dn dnRaw dt binds bindsRaw defs ments
    (p + 4) hwf

theorem slicesGo_two (data : List Nat) (s e fuel : Nat)
    (f1 f2 : List Nat) (c1end : Nat)
    (h1 : read_frame_header data e s = some (f1, s + 8, c1end))
    (h2 : read_frame_header data e c1end = some (f2, c1end + 8, e))
    (hs : s < e) (hm : c1end < e) (hfuel : 2 ≤ fuel) :
    slicesGo fuel data s e =
      some [(f1, s + 8, c1end), (f2, c1end + 8, e)] := by
  obtain ⟨f', hf⟩ : ∃ f', fuel = f' + 2 := ⟨fuel - 2, by omega⟩
  subst hf
  cases f' with
  | zero => simp only [slicesGo, if_pos hs, h1, if_pos hm, h2]
  | succ f'' =>
    simp only [slicesGo, if_pos hs, h1, if_pos hm, h2,
      if_neg (lt_irrefl e)]

theorem containerD_of_wf (data : List Nat) (s e : Nat)
    (entries : List (Nat × List Nat)) (ments : List Ment)
    (dn : String) (dnRaw : List Nat) (dt : Nat)
    (defs : List (String × (Nat × Nat × Nat)))
    (he : e ≤ data.length)
    (hwf : WfContainerD data s e entries ments) :
    parseMappingsContainer data s e dn dnRaw dt defs =
      mentRows dn dnRaw dt (bindsOf entries) (bindsRawOf entries) defs
        ments := by
  obtain ⟨d, m, hfid1, hlen1, hd4, hcnt1, hwfb, hfid2, hlen2, hm4, hcnt2,
    hwfm, hee⟩ := hwf
  subst hee
  have hbindle := wfBind_le data entries _ _ hwfb
  have hmentle := wfMents_le data ments _ _ hwfm
  have hh1 : read_frame_header data (s + 8 + d + 8 + m) s =
      some (tagDCBM, s + 8, s + 8 + d) := by
    rw [frame_header_at data (s + 8 + d + 8 + m) s d hlen1 (by omega)
      (by omega), hfid1]
  have hh2 : read_frame_header data (s + 8 + d + 8 + m) (s + 8 + d) =
      some (tagCMAS, s + 8 + d + 8, s + 8 + d + 8 + m) := by
    rw [frame_header_at data (s + 8 + d + 8 + m) (s + 8 + d) m hlen2
      (by omega) (by omega), hfid2]
  have hsl := slicesGo_two data s (s + 8 + d + 8 + m) (s + 8 + d + 8 + m - s)
    tagDCBM tagCMAS (s + 8 + d) hh1 hh2 (by omega) (by omega) (by omega)
  have hbg := bindGo_of_wf data (s + 8 + d) (by omega) entries (s + 12)
    (([], []) : List (Nat × String) × List (Nat × List Nat)) hwfb
  have hrl := readMappingsList_of_wf data (s + 8 + d + 8) (s + 8 + d + 8 + m)
    ments dn dnRaw dt (bindsOf entries) (bindsRawOf entries) defs he
    (by omega) hcnt2 (by
      rw [show s + 8 + d + 8 + 4 = s + 8 + d + 12 from by omega]
      exact hwfm)
  simp only [parseMappingsContainer, hsl, List.foldlM_cons, List.foldlM_nil,
    Option.bind_eq_bind, Option.some_bind, Option.pure_def, if_pos rfl,
    if_neg (show ¬ tagCMAS = tagDCBM from by decide),
    if_neg (show ¬ tagDCBM = tagCMAS from by decide),
    u32_at data (s + 8) (by omega)]
  rw [show s + 8 + 4 = s + 12 from by omega, hcnt1, hbg]
  simp only [if_true, Option.some_bind, Option.bind_some, List.nil_append, hrl]
  cases hmr : mentRows dn dnRaw dt (bindsOf entries) (bindsRawOf entries)
      defs ments with
  | none => rfl
  | some lst => simp

theorem containerC_of_wf (data : List Nat) (s e : Nat)
    (entries : List (Nat × List Nat)) (ments : List Ment)
    (dn : String) (dnRaw : List Nat) (dt : Nat)
    (defs : List (String × (Nat × Nat × Nat)))
    (he : e ≤ data.length)
    (hwf : WfContainerC data s e entries ments) :
    parseMappingsContainer data s e dn dnRaw dt defs =
      mentRows dn dnRaw dt (bindsOf entries) (bindsRawOf entries) defs
        ments := by
  obtain ⟨m, d, hfid1, hlen1, hm4, hcnt1, hwfm, hfid2, hlen2, hd4, hcnt2,
    hwfb, hee⟩ := hwf
  subst hee
  have hbindle := wfBind_le data entries _ _ hwfb
  have hmentle := wfMents_le data ments _ _ hwfm
  have hh1 : read_frame_header data (s + 8 + m + 8 + d) s =
      some (tagCMAS, s + 8, s + 8 + m) := by
    rw [frame_header_at data (s + 8 + m + 8 + d) s m hlen1 (by omega)
      (by omega), hfid1]
  have hh2 : read_frame_header data (s + 8 + m + 8 + d) (s + 8 + m) =
      some (tagDCBM, s + 8 + m + 8, s + 8 + m + 8 + d) := by
    rw [frame_header_at data (s + 8 + m + 8 + d) (s + 8 + m) d hlen2
      (by omega) (by omega), hfid2]
  have hsl := slicesGo_two data s (s + 8 + m + 8 + d) (s + 8 + m + 8 + d - s)
    tagCMAS tagDCBM (s + 8 + m) hh1 hh2 (by omega) (by omega) (by omega)
  have hbg := bindGo_of_wf data (s + 8 + m + 8 + d) (by omega) entries
    (s + 8 + m + 12)
    (([], []) : List (Nat × String) × List (Nat × List Nat)) hwfb
  have hrl := readMappingsList_of_wf data (s + 8) (s + 8 + m)
    ments dn dnRaw dt (bindsOf entries) (bindsRawOf entries) defs (by omega)
    (by omega) hcnt1 (by
      rw [show s + 8 + 4 = s + 12 from by omega]
      exact hwfm)
  simp only [parseMappingsContainer, hsl, List.foldlM_cons, List.foldlM_nil,
    Option.bind_eq_bind, Option.some_bind, Option.pure_def, if_pos rfl,
    if_neg (show ¬ tagCMAS = tagDCBM from by decide),
    if_neg (show ¬ tagDCBM = tagCMAS from by decide),
    u32_at data (s + 8 + m + 8) (by omega)]
  rw [show s + 8 + m + 8 + 4 = s + 8 + m + 12 from by omega, hcnt2, hbg]
  simp only [if_true, Option.some_bind, Option.bind_some, List.nil_append, hrl]
  cases hmr : mentRows dn dnRaw dt (bindsOf entries) (bindsRawOf entries)
      defs ments with
  | none => rfl
  | some lst => simp

/-- C2: for every mappings container whose immediate children are one
well-formed binding-name list and one well-formed mapping list (the same
abstract binding entries and mapping entries serialized in either child
order), decoding the container produces the same record sequence in both
orders, and that sequence is the canonical decode in which every mapping
entry is resolved against the complete binding table built from the
binding list. -/
theorem c2_container_order_independent (data data' : List Nat)
    (s e s' e' : Nat) (entries : List (Nat × List Nat)) (ments : List Ment)
    (dn : String) (dnRaw : List Nat) (dt : Nat)
    (defs : List (String × (Nat × Nat × Nat)))
    (he : e ≤ data.length) (he' : e' ≤ data'.length)
    (hD : WfContainerD data s e entries ments)
    (hC : WfContainerC data' s' e' entries ments) :
    parseMappingsContainer data s e dn dnRaw dt defs =
      parseMappingsContainer data' s' e' dn dnRaw dt defs ∧
    parseMappingsContainer data s e dn dnRaw dt defs =
      mentRows dn dnRaw dt (bindsOf entries) (bindsRawOf entries) defs
        ments := by
  have h1 := containerD_of_wf data s e entries ments dn dnRaw dt defs he hD
  have h2 := containerC_of_wf data' s' e' entries ments dn dnRaw dt defs
    he' hC
  exact ⟨h1.trans h2.symm, h1⟩

set_option maxRecDepth 1000000 in
/-- Witness for c2_container_order_independent: the two concrete container
buffers holding the same binding entry and the same mapping entry in the
two child orders decode identically. -/
theorem c2_container_order_independent_witness :
    parseMappingsContainer c2BufD 0 170 "Pad" [] 1 [] =
      parseMappingsContainer c2BufC 0 170 "Pad" [] 1 [] ∧
    parseMappingsContainer c2BufD 0 170 "Pad" [] 1 [] =
      mentRows "Pad" [] 1 (bindsOf [(5, utf16beEnc "Ch01.CC.010")])
        (bindsRawOf [(5, utf16beEnc "Ch01.CC.010")]) []
        [⟨5, 0, 42, c1CmadPayload⟩] :=
  c2_container_order_independent c2BufD c2BufC 0 170 0 170
    [(5, utf16beEnc "Ch01.CC.010")] [⟨5, 0, 42, c1CmadPayload⟩]
    "Pad" [] 1 [] (by decide) (by decide)
    ⟨42, 112, by decide, by decide, by decide, by decide,
      by simp only [WfBindEntries]; decide, by decide, by decide, by decide,
      by decide, by simp only [WfMents]; decide, by decide⟩
    ⟨112, 42, by decide, by decide, by decide, by decide,
      by simp only [WfMents]; decide, by decide, by decide, by decide,
      by decide, by simp only [WfBindEntries]; decide, by decide⟩

set_option maxRecDepth 100000 in
/-- Witness for c6_malformed_child_aborts at the concrete buffer: the
malformed first device aborts the whole parse. -/
theorem c6_malformed_child_aborts_witness : parse c6Buf = none := by
  have h := c6_malformed_child_aborts c6Buf 8 20 0 12 (by decide) (by decide)
    (by decide)
  exact h.2 c6Buf ⟨tagDEVI, 0, 20, 0⟩ (by decide) (by decide) h.1

end Tsi
